import Mathlib

set_option maxRecDepth 10000
set_option maxHeartbeats 2000000
set_option linter.dupNamespace false
set_option linter.unusedVariables false

/-!
Verification development for the mathy interpreter (src/src/lexer.rs,
src/src/parser.rs, src/src/interpreter.rs).

Modelling conventions, stated once here:

- Machine floats (f64) are modelled by a linearly ordered field, instantiated
  at the real numbers for the concrete claims.  The primitive 64-bit float
  operations that are not field operations (powf, sin, cos, tan, the PI
  constant) are collected in a `ScalarOps` record; the instantiation `realOps`
  interprets them by the real functions (Real.rpow, Real.sin, ...).
- Rust float literals in tokens and AST nodes are strings of canonical decimal
  text in the source; since Rust float-to-string-to-float round trips exactly,
  the parser and interpreter embedding identifies a literal with the scalar
  value it denotes.  The lexer function parse_float, whose claims are about
  the literal text itself, is modelled separately over lists of characters.
- Token source locations are carried by the Rust code purely for diagnostic
  messages and never influence behaviour; the embedding drops them, and
  parse-error constructors drop the location payload accordingly.
- A Rust panic (index out of bounds, or the explicit unwrap_or_else
  panic wrappers around elementwise list operations) is modelled as the
  distinguished outcome `Failure.panic`, kept separate from the structured
  interpreter errors that the program returns as values.
- Loops and non-structural recursion (user function bodies can be mutually
  recursive) are modelled with an explicit fuel parameter; exhaustion is the
  distinguished outcome `fuelOut`, so genuine divergence of the Rust code is
  expressible as returning fuelOut for every fuel.
-/

/-- Binary operator symbols, from parser.rs enum Operator. -/
inductive Operator where
  | Plus
  | Minus
  | Multi
  | Div
  | Pow
deriving DecidableEq, Repr

/-- Runtime values, from interpreter.rs enum Data: a scalar or a nested list. -/
inductive Data (α : Type) where
  | Float (x : α)
  | List (ds : List (Data α))

/-- Expressions, from parser.rs enum Expr.  Float literals carry the scalar
value denoted by their canonical decimal text. -/
inductive Expr (α : Type) where
  | FloatLiteral (x : α)
  | NegFloatLiteral (x : α)
  | Ident (name : String)
  | FunctionCall (name : String) (args : List (Expr α))
  | Expr (l : Expr α) (op : Operator) (r : Expr α)
  | List (es : List (Expr α))

/-- Statements, from parser.rs enum Parsed.  Name tokens are reduced to the
identifier text they carry. -/
inductive Parsed (α : Type) where
  | FunctionDecleration (name : String) (params : List String) (body : Expr α)
  | FromLoop (mn mx ident stp : Expr α) (body : List (Parsed α))
  | ForLoop (ident listE : Expr α) (body : List (Parsed α))
  | Block (body : List (Parsed α))
  | Declaration (name : String) (init : Expr α)
  | Destructuring (l r : Expr α)
  | PrintExpr (e : Expr α)

/-- Structured runtime errors, from interpreter.rs enum InterpreterError. -/
inductive InterpreterError where
  | UndefinedVariable (name : String)
  | UndefinedFunction (name : String)
  | InvalidArguments (name : String)
  | InvalidListLength
deriving DecidableEq, Repr

/-- Failure outcomes of expression evaluation: a structured interpreter error,
a Rust panic, or exhaustion of the modelling fuel. -/
inductive Failure where
  | err (e : InterpreterError)
  | panic
  | fuelOut
deriving DecidableEq, Repr

/-- Explicit bind on Except, mirroring the Rust question-mark operator. -/
def bindE {F β γ : Type} : Except F β → (β → Except F γ) → Except F γ
  | .error e, _ => .error e
  | .ok v, f => f v

/-- Primitive f64 operations beyond the field structure, abstracted so that
the semantics stays a computable function of this record. -/
structure ScalarOps (α : Type) where
  powf : α → α → α
  sinf : α → α
  cosf : α → α
  tanf : α → α
  piv : α

/-- Real-number interpretation of the f64 primitives used by interpreter.rs:
powf is real exponentiation, the trigonometric functions are the real ones,
and PI is the real constant pi. -/
noncomputable def realOps : ScalarOps ℝ where
  powf := fun a b => a ^ b
  sinf := Real.sin
  cosf := Real.cos
  tanf := Real.tan
  piv := Real.pi

/-- Scalar-scalar application of one operator, the final match of apply_op in
interpreter.rs (lines 123-129). -/
def scalarOp {α : Type} [LinearOrderedField α] (ops : ScalarOps α) (op : Operator) (a b : α) : α :=
  match op with
  | .Plus => a + b
  | .Minus => a - b
  | .Multi => a * b
  | .Div => a / b
  | .Pow => ops.powf a b

mutual
/-- Broadcasting operator application, from apply_op in interpreter.rs
(lines 77-130).  Both lists: lengths must match, else the InvalidListLength
error; elementwise recursion whose element failures panic.  One list: the
scalar is broadcast over the list.  Two scalars: direct application. -/
def apply_op {α : Type} [LinearOrderedField α] (ops : ScalarOps α) :
    Data α → Data α → Operator → Except Failure (Data α)
  | .List as, .List bs, op =>
    if as.length ≠ bs.length then .error (.err .InvalidListLength)
    else bindE (applyZip ops as bs op) fun ds => .ok (.List ds)
  | .List as, .Float b, op =>
    bindE (applyMapL ops as (.Float b) op) fun ds => .ok (.List ds)
  | .Float a, .List bs, op =>
    bindE (applyMapR ops (.Float a) bs op) fun ds => .ok (.List ds)
  | .Float a, .Float b, op => .ok (.Float (scalarOp ops op a b))
termination_by l r _ => sizeOf l + sizeOf r
decreasing_by all_goals (try simp; try omega)

/-- Elementwise application over two zipped lists; an element failure becomes
a panic through the unwrap_or_else wrapper at interpreter.rs line 89. -/
def applyZip {α : Type} [LinearOrderedField α] (ops : ScalarOps α) :
    List (Data α) → List (Data α) → Operator → Except Failure (List (Data α))
  | [], _, _ => .ok []
  | _ :: _, [], _ => .ok []
  | a :: as, b :: bs, op =>
    match apply_op ops a b op with
    | .ok d => bindE (applyZip ops as bs op) fun ds => .ok (d :: ds)
    | .error _ => .error .panic
termination_by as bs _ => sizeOf as + sizeOf bs
decreasing_by all_goals (try simp; try omega)

/-- Broadcast of a scalar right operand over a list left operand, with the
panic wrapper of interpreter.rs line 102. -/
def applyMapL {α : Type} [LinearOrderedField α] (ops : ScalarOps α) :
    List (Data α) → Data α → Operator → Except Failure (List (Data α))
  | [], _, _ => .ok []
  | a :: as, r, op =>
    match apply_op ops a r op with
    | .ok d => bindE (applyMapL ops as r op) fun ds => .ok (d :: ds)
    | .error _ => .error .panic
termination_by as r _ => sizeOf as + sizeOf r
decreasing_by all_goals (try simp; try omega)

/-- Broadcast of a scalar left operand over a list right operand, with the
panic wrapper of interpreter.rs line 116. -/
def applyMapR {α : Type} [LinearOrderedField α] (ops : ScalarOps α) :
    Data α → List (Data α) → Operator → Except Failure (List (Data α))
  | _, [], _ => .ok []
  | l, b :: bs, op =>
    match apply_op ops l b op with
    | .ok d => bindE (applyMapR ops l bs op) fun ds => .ok (d :: ds)
    | .error _ => .error .panic
termination_by l bs _ => sizeOf l + sizeOf bs
decreasing_by all_goals (try simp; try omega)
end

/-- Sanity check: scalar-scalar application is the direct operation. -/
theorem apply_op_scalar_example :
    apply_op realOps (.Float 2) (.Float 3) .Plus = .ok (.Float (2 + 3)) := by
  rw [apply_op]; rfl

/-! Broadcasting specifications (claims C5 and C6). -/

mutual
/-- Applying an operator with a scalar on the left never fails, whatever the
shape of the right operand: the recursion of apply_op only checks lengths when
both operands are lists. -/
theorem applyScalarRight_total {α : Type} [LinearOrderedField α] (ops : ScalarOps α)
    (s : α) (op : Operator) :
    ∀ d : Data α, ∃ d', apply_op ops (.Float s) d op = .ok d'
  | .Float b => ⟨.Float (scalarOp ops op s b), by rw [apply_op]⟩
  | .List bs => by
    obtain ⟨M, hM, _⟩ := applyMapR_spec ops s op bs
    exact ⟨.List M, by rw [apply_op, hM]; rfl⟩
termination_by d => sizeOf d
decreasing_by all_goals (try simp; try omega)

/-- The scalar-left broadcast map applyMapR always succeeds and is the
elementwise application of apply_op. -/
theorem applyMapR_spec {α : Type} [LinearOrderedField α] (ops : ScalarOps α)
    (s : α) (op : Operator) :
    ∀ bs : List (Data α), ∃ M, applyMapR ops (.Float s) bs op = .ok M ∧
      List.Forall₂ (fun b m => apply_op ops (.Float s) b op = .ok m) bs M
  | [] => ⟨[], by rw [applyMapR], .nil⟩
  | b :: bs => by
    obtain ⟨d, hd⟩ := applyScalarRight_total ops s op b
    obtain ⟨M, hM, hF⟩ := applyMapR_spec ops s op bs
    exact ⟨d :: M, by rw [applyMapR, hd, hM]; rfl, .cons hd hF⟩
termination_by bs => sizeOf bs
decreasing_by all_goals (try simp; try omega)
end

/-- When applyZip returns a list, it is exactly the elementwise application of
apply_op to corresponding elements. -/
theorem applyZip_ok_spec {α : Type} [LinearOrderedField α] (ops : ScalarOps α) (op : Operator) :
    ∀ (A B M : List (Data α)), A.length = B.length → applyZip ops A B op = .ok M →
      M.length = A.length ∧ ∀ (i : ℕ) (hA : i < A.length) (hB : i < B.length) (hM : i < M.length),
        apply_op ops (A.get ⟨i, hA⟩) (B.get ⟨i, hB⟩) op = .ok (M.get ⟨i, hM⟩)
  | [], [], M => by
    rw [applyZip]
    intro _ h
    injection h with h
    subst h
    exact ⟨rfl, fun i hA => absurd hA (Nat.not_lt_zero i)⟩
  | [], _ :: _, M => by intro h; exact absurd h (by simp)
  | _ :: _, [], M => by intro h; exact absurd h (by simp)
  | a :: as, b :: bs, M => by
    intro hlen h
    rw [applyZip] at h
    cases happ : apply_op ops a b op with
    | error f => rw [happ] at h; exact absurd h (by simp)
    | ok d =>
      rw [happ] at h
      cases hz : applyZip ops as bs op with
      | error f => rw [hz] at h; exact absurd h (by simp [bindE])
      | ok Ms =>
        rw [hz] at h
        simp only [bindE] at h
        injection h with h
        subst h
        have hlen' : as.length = bs.length := by simpa using hlen
        obtain ⟨hlM, helem⟩ := applyZip_ok_spec ops op as bs Ms hlen' hz
        refine ⟨by simpa using hlM, ?_⟩
        intro i hA hB hM
        match i with
        | 0 => simpa using happ
        | i + 1 =>
          have hA' : i < as.length := by simpa using hA
          have hB' : i < bs.length := by simpa using hB
          have hM' : i < Ms.length := by simpa using hM
          simpa using helem i hA' hB' hM'

/-- C5: broadcasting arithmetic is elementwise.  For a scalar s and a list L,
apply_op gives a list of the same length whose i-th element is apply_op of s
and the i-th element of L; for two equal-length lists whose application
returns a list, that list has the same length and its i-th element is the
application of the i-th elements, and the same statement read at the inner
lists covers arbitrary nesting. -/
theorem C5_broadcasting_elementwise :
    (∀ (α : Type) [inst : LinearOrderedField α] (ops : ScalarOps α) (s : α)
      (L : List (Data α)) (op : Operator),
      ∃ M, apply_op ops (.Float s) (.List L) op = .ok (.List M) ∧ M.length = L.length ∧
        ∀ (i : ℕ) (h1 : i < L.length) (h2 : i < M.length),
          apply_op ops (.Float s) (L.get ⟨i, h1⟩) op = .ok (M.get ⟨i, h2⟩)) ∧
    (∀ (α : Type) [inst : LinearOrderedField α] (ops : ScalarOps α)
      (A B M : List (Data α)) (op : Operator),
      A.length = B.length →
      apply_op ops (.List A) (.List B) op = .ok (.List M) →
      M.length = A.length ∧
        ∀ (i : ℕ) (hA : i < A.length) (hB : i < B.length) (hM : i < M.length),
          apply_op ops (A.get ⟨i, hA⟩) (B.get ⟨i, hB⟩) op = .ok (M.get ⟨i, hM⟩)) := by
  constructor
  · intro α inst ops s L op
    obtain ⟨M, hM, hF⟩ := applyMapR_spec ops s op L
    have hget := List.forall₂_iff_get.mp hF
    exact ⟨M, by rw [apply_op, hM]; rfl, hget.1.symm, fun i h1 h2 => hget.2 i h1 h2⟩
  · intro α inst ops A B M op hlen h
    rw [apply_op, if_neg (by simp [hlen])] at h
    cases hz : applyZip ops A B op with
    | error f => rw [hz] at h; exact absurd h (by simp [bindE])
    | ok Ms =>
      rw [hz] at h
      simp only [bindE] at h
      injection h with h
      injection h with h
      subst h
      exact applyZip_ok_spec ops op A B _ hlen hz

/-- Witness for C5 at a concrete input: both lists have length one, the
operator is addition over the reals. -/
theorem C5_broadcasting_elementwise_witness :
    ([Data.Float (1:ℝ)].length = [Data.Float (2:ℝ)].length) ∧
    ([Data.Float ((1:ℝ) + 2)].length = [Data.Float (1:ℝ)].length ∧
      ∀ (i : ℕ) (hA : i < [Data.Float (1:ℝ)].length) (hB : i < [Data.Float (2:ℝ)].length)
        (hM : i < [Data.Float ((1:ℝ) + 2)].length),
        apply_op realOps ([Data.Float (1:ℝ)].get ⟨i, hA⟩) ([Data.Float (2:ℝ)].get ⟨i, hB⟩)
          .Plus = .ok ([Data.Float ((1:ℝ) + 2)].get ⟨i, hM⟩)) := by
  refine ⟨rfl, C5_broadcasting_elementwise.2 ℝ realOps
    [Data.Float 1] [Data.Float 2] [Data.Float (1 + 2)] .Plus rfl ?_⟩
  rw [apply_op, if_neg (by simp), applyZip, apply_op, applyZip]
  rfl

/-- C6 (amended): a length mismatch between the two operand lists themselves
yields the structured InvalidListLength error, as in the quoted example
with [1,2,3] + [1,2]; a mismatch strictly inside nested sub-lists instead
aborts with a panic (the unwrap_or_else wrapper), not with the returned
InvalidListLength error. -/
theorem C6_list_length_mismatch :
    (∀ (α : Type) [inst : LinearOrderedField α] (ops : ScalarOps α)
      (A B : List (Data α)) (op : Operator), A.length ≠ B.length →
      apply_op ops (.List A) (.List B) op = .error (.err .InvalidListLength)) ∧
    (apply_op realOps (.List [.Float 1, .Float 2, .Float 3]) (.List [.Float 1, .Float 2])
      .Plus = .error (.err .InvalidListLength)) ∧
    (apply_op realOps (.List [.List [.Float 1, .Float 2]]) (.List [.List [.Float 1]])
      .Plus = .error .panic) := by
  refine ⟨fun α inst ops A B op h => by rw [apply_op, if_pos h], ?_, ?_⟩
  · rw [apply_op, if_pos (by simp)]
  · rw [apply_op, if_neg (by simp), applyZip, apply_op, if_pos (by simp)]; rfl

/-- Witness for C6 at a concrete input: lists of lengths two and one. -/
theorem C6_list_length_mismatch_witness :
    apply_op realOps (.List [.Float (5:ℝ), .Float 6]) (.List [.Float (7:ℝ)]) .Minus
      = .error (.err .InvalidListLength) :=
  C6_list_length_mismatch.1 ℝ realOps [.Float 5, .Float 6] [.Float 7] .Minus (by simp)

/-- Counterexample for C6 as stated: at the nested input
[[1,2]] + [[1]] the lengths differ at the inner level, but the operation
aborts with a panic instead of failing with the InvalidListLength error. -/
theorem C6_list_length_mismatch_counterexample :
    apply_op realOps (.List [.List [.Float 1, .Float 2]]) (.List [.List [.Float 1]])
      .Plus = .error .panic ∧
    apply_op realOps (.List [.List [.Float 1, .Float 2]]) (.List [.List [.Float 1]])
      .Plus ≠ .error (.err .InvalidListLength) := by
  have h : apply_op realOps (.List [.List [.Float (1:ℝ), .Float 2]]) (.List [.List [.Float 1]])
      .Plus = .error .panic := by
    rw [apply_op, if_neg (by simp), applyZip, apply_op, if_pos (by simp)]; rfl
  exact ⟨h, by rw [h]; simp⟩

/-! Lexer float scanning (claim C7), from parse_float in lexer.rs
(lines 162-206).  The scan operates on the list of remaining source
characters and produces the emitted literal text together with the
unconsumed rest. -/

/-- Lexical errors of lexer.rs: consuming past the end of input, and a second
decimal point inside one numeral. -/
inductive LexError where
  | EndOfCode
  | MultiplePeriods
deriving DecidableEq, Repr

/-- Final adjustment of the literal buffer, from lexer.rs lines 196-198: a
buffer with no decimal point gets ".0" appended. -/
def finishFloatBuf (buf : List Char) : List Char :=
  if buf.contains '.' then buf else buf ++ ['.', '0']

/-- Scanning loop of parse_float, lexer.rs lines 175-194: consume digits,
underscores (discarded) and at most one decimal point; stop at the first
other character. -/
def parse_float_loop : Bool → List Char → List Char → Except LexError (List Char × List Char)
  | _, buf, [] => .ok (finishFloatBuf buf, [])
  | period, buf, c :: rest =>
    if c.isDigit ∨ c = '.' ∨ c = '_' then
      if c = '_' then parse_float_loop period buf rest
      else if c = '.' then
        if period then .error .MultiplePeriods
        else parse_float_loop true (buf ++ [c]) rest
      else parse_float_loop period (buf ++ [c]) rest
    else .ok (finishFloatBuf buf, c :: rest)

/-- Entry of parse_float, lexer.rs lines 167-173: a leading decimal point
seeds the buffer with "0." and records the point as already seen. -/
def parse_float : List Char → Except LexError (List Char × List Char)
  | [] => .error .EndOfCode
  | first :: rest =>
    if first = '.' then parse_float_loop true ['0', '.'] rest
    else parse_float_loop false [first] rest

/-- The finishing step always leaves a decimal point in the buffer. -/
theorem finishFloatBuf_contains (b : List Char) : (finishFloatBuf b).contains '.' = true := by
  unfold finishFloatBuf
  split
  · assumption
  · induction b with
    | nil => decide
    | cons c l ih => simp only [List.cons_append, List.contains_cons] at ih ⊢; simp [ih]

/-- Every literal the scanning loop emits went through the finishing step. -/
theorem parse_float_loop_shape :
    ∀ (cs : List Char) (period : Bool) (buf s r : List Char),
      parse_float_loop period buf cs = .ok (s, r) → ∃ b, s = finishFloatBuf b := by
  intro cs
  induction cs with
  | nil =>
    intro period buf s r h
    rw [parse_float_loop] at h
    injection h with h
    exact ⟨buf, (congrArg Prod.fst h).symm⟩
  | cons c rest ih =>
    intro period buf s r h
    rw [parse_float_loop] at h
    by_cases hc : c.isDigit ∨ c = '.' ∨ c = '_'
    · rw [if_pos hc] at h
      by_cases hu : c = '_'
      · rw [if_pos hu] at h; exact ih period buf s r h
      · rw [if_neg hu] at h
        by_cases hd : c = '.'
        · rw [if_pos hd] at h
          cases period with
          | true => simp at h
          | false => exact ih true (buf ++ [c]) s r (by simpa using h)
        · rw [if_neg hd] at h; exact ih period (buf ++ [c]) s r h
    · rw [if_neg hc] at h
      injection h with h
      exact ⟨buf, (congrArg Prod.fst h).symm⟩

/-- C7 (amended): the lexer normalizes a leading decimal point by prefixing
"0", appends ".0" to a literal containing no decimal point at all, and
discards underscore separators, so ".5" lexes to "0.5" and "5_000" to
"5000.0"; but a literal that already contains a decimal point is emitted
as scanned, so "5." lexes to "5." (no trailing "0" is appended), and in
general every emitted literal text contains a decimal point. -/
theorem C7_numeral_normalization :
    parse_float ['.', '5'] = .ok (['0', '.', '5'], []) ∧
    parse_float ['5', '_', '0', '0', '0'] = .ok (['5', '0', '0', '0', '.', '0'], []) ∧
    parse_float ['5', '.'] = .ok (['5', '.'], []) ∧
    (∀ (cs s r : List Char), parse_float cs = .ok (s, r) → s.contains '.' = true) := by
  refine ⟨rfl, rfl, rfl, ?_⟩
  intro cs s r h
  match cs with
  | [] => rw [parse_float] at h; exact absurd h (by simp)
  | first :: rest =>
    rw [parse_float] at h
    by_cases hf : first = '.'
    · rw [if_pos hf] at h
      obtain ⟨b, hb⟩ := parse_float_loop_shape rest true ['0', '.'] s r h
      rw [hb]; exact finishFloatBuf_contains b
    · rw [if_neg hf] at h
      obtain ⟨b, hb⟩ := parse_float_loop_shape rest false [first] s r h
      rw [hb]; exact finishFloatBuf_contains b

/-- Witness for C7: the general dotted-text clause applied to the literal
"7", which lexes to "7.0". -/
theorem C7_numeral_normalization_witness :
    parse_float ['7'] = .ok (['7', '.', '0'], []) ∧ (['7', '.', '0'].contains '.') = true :=
  ⟨rfl, C7_numeral_normalization.2.2.2 ['7'] ['7', '.', '0'] [] rfl⟩

/-- Counterexample for C7 as stated: lexing "5." produces the literal text
"5.", not the claimed canonical "5.0". -/
theorem C7_numeral_normalization_counterexample :
    parse_float ['5', '.'] = .ok (['5', '.'], []) ∧ ['5', '.'] ≠ ['5', '.', '0'] := by
  exact ⟨rfl, by decide⟩

/-! Parser embedding, from parser.rs.  The token stream is a fixed list and
the parser position is an index, mirroring the index field of the Rust
Parser struct; peek k inspects index + k and consume advances by one. -/

/-- Token kinds, from lexer.rs enum TokenType, locations dropped and float
literal text identified with its value. -/
inductive Tok (α : Type) where
  | ident (name : String)
  | floatLit (x : α)
  | comment
  | unknown (c : Char)
  | newline
  | equals
  | lparen
  | rparen
  | lbrace
  | rbrace
  | lbracket
  | rbracket
  | keyword (s : String)
  | comma
  | plus
  | minus
  | multi
  | div
  | circumflex

/-- Parse errors, from parser.rs enum ParseError, locations dropped. -/
inductive ParseError (α : Type) where
  | EOF
  | MissingLiteral
  | UnexpectedToken (t : Tok α)
  | UnexpectedKeyword (k : String)
  | Expected (what : String)
  | ExpectedGot (expected got : String)
  | ExpectedGotToken (expected : String) (got : Tok α)

/-- Parser failure: a structured parse error, an unimplemented-statement
panic (the todo macro in parse and parse_block), or fuel exhaustion. -/
inductive PFail (α : Type) where
  | perr (e : ParseError α)
  | fatal
  | fuelOut

/-- Peek at offset i of a token list, as Parser::peek over tokens and index. -/
def peekT {α : Type} : List (Tok α) → Nat → Option (Tok α)
  | [], _ => none
  | t :: rest, i => if i = 0 then some t else peekT rest (i - 1)

/-- Operator precedence, from get_prec in parser.rs lines 91-97. -/
def get_prec (op : Operator) : Nat :=
  match op with
  | .Plus | .Minus => 1
  | .Multi | .Div => 2
  | .Pow => 3

/-- The operator-token match of parse_expr, parser.rs lines 196-203. -/
def tokOp {α : Type} : Tok α → Option Operator
  | .plus => some .Plus
  | .minus => some .Minus
  | .multi => some .Multi
  | .div => some .Div
  | .circumflex => some .Pow
  | _ => none


mutual
/-- Expression parsing with precedence climbing, from Parser::parse_expr in
parser.rs lines 126-218: a primary (literal, identifier, call, negative
literal, parenthesized expression, or list literal), one unconditional
consume, then the binary-operator loop.  The is_function flag is threaded
through but never read, exactly as in the source. -/
def parse_exprF {α : Type} : Nat → List (Tok α) → Nat → Nat → Bool →
    Except (PFail α) (Expr α × Nat)
  | 0, _, _, _, _ => .error .fuelOut
  | fuel + 1, toks, idx, minPrec, isFn =>
    match peekT toks idx with
    | none => .error (.perr .EOF)
    | some tk =>
      bindE
        (match tk with
        | .floatLit v => .ok (Expr.FloatLiteral v, idx)
        | .ident name =>
          match peekT toks (idx + 1) with
          | some .lparen =>
            bindE (parseArgsF fuel toks (idx + 2) isFn []) fun p =>
              .ok (Expr.FunctionCall name p.1, p.2)
          | _ => .ok (Expr.Ident name, idx)
        | .minus =>
          match peekT toks (idx + 1) with
          | some (.floatLit v) => .ok (Expr.NegFloatLiteral v, idx + 1)
          | _ => .error (.perr .MissingLiteral)
        | .lparen => parse_exprF fuel toks (idx + 1) 1 isFn
        | .lbracket =>
          bindE (parseListElemsF fuel toks (idx + 1) isFn []) fun p =>
            .ok (Expr.List p.1, p.2)
        | t => .error (.perr (.UnexpectedToken t)))
        fun lp =>
          match peekT toks lp.2 with
          | none => .error (.perr .EOF)
          | some _ => parseBinLoopF fuel toks (lp.2 + 1) minPrec isFn lp.1
termination_by structural fuel _ _ _ _ => fuel

/-- Call-argument loop of parse_expr, parser.rs lines 144-152: while the next
token is not a right parenthesis, consume a comma if one is next, then parse
an argument at minimum precedence 1. -/
def parseArgsF {α : Type} : Nat → List (Tok α) → Nat → Bool → List (Expr α) →
    Except (PFail α) (List (Expr α) × Nat)
  | 0, _, _, _, _ => .error .fuelOut
  | fuel + 1, toks, idx, isFn, acc =>
    match peekT toks idx with
    | none => .ok (acc, idx)
    | some .rparen => .ok (acc, idx)
    | some .comma =>
      bindE (parse_exprF fuel toks (idx + 1) 1 isFn) fun p =>
        parseArgsF fuel toks p.2 isFn (acc ++ [p.1])
    | some _ =>
      bindE (parse_exprF fuel toks idx 1 isFn) fun p =>
        parseArgsF fuel toks p.2 isFn (acc ++ [p.1])
termination_by structural fuel _ _ _ _ => fuel

/-- List-literal element loop of parse_expr, parser.rs lines 168-178, with
the same comma discipline as the argument loop. -/
def parseListElemsF {α : Type} : Nat → List (Tok α) → Nat → Bool → List (Expr α) →
    Except (PFail α) (List (Expr α) × Nat)
  | 0, _, _, _, _ => .error .fuelOut
  | fuel + 1, toks, idx, isFn, acc =>
    match peekT toks idx with
    | none => .ok (acc, idx)
    | some .rbracket => .ok (acc, idx)
    | some .comma =>
      bindE (parse_exprF fuel toks (idx + 1) 1 isFn) fun p =>
        parseListElemsF fuel toks p.2 isFn (acc ++ [p.1])
    | some _ =>
      bindE (parse_exprF fuel toks idx 1 isFn) fun p =>
        parseListElemsF fuel toks p.2 isFn (acc ++ [p.1])
termination_by structural fuel _ _ _ _ => fuel

/-- Binary-operator loop of parse_expr, parser.rs lines 189-215: while the
next token is an operator of precedence at least the minimum, consume it and
parse the right operand at precedence one higher, building a left-nested
tree. -/
def parseBinLoopF {α : Type} : Nat → List (Tok α) → Nat → Nat → Bool → Expr α →
    Except (PFail α) (Expr α × Nat)
  | 0, _, _, _, _, _ => .error .fuelOut
  | fuel + 1, toks, idx, minPrec, isFn, left =>
    match peekT toks idx with
    | none => .ok (left, idx)
    | some t =>
      match tokOp t with
      | none => .ok (left, idx)
      | some op =>
        if get_prec op < minPrec then .ok (left, idx)
        else
          bindE (parse_exprF fuel toks (idx + 1) (get_prec op + 1) isFn) fun p =>
            parseBinLoopF fuel toks p.2 minPrec isFn (Expr.Expr left op p.1)
termination_by structural fuel _ _ _ _ _ => fuel
end

/-- Sanity check: multiplication binds tighter than addition. -/
theorem parse_exprF_precedence_example :
    parse_exprF 20 [Tok.floatLit (2:ℝ), .plus, .floatLit 3, .multi, .floatLit 4] 0 1 false
      = .ok (.Expr (.FloatLiteral 2) .Plus (.Expr (.FloatLiteral 3) .Multi (.FloatLiteral 4)), 5) := rfl

/-- Sanity check: the power operator associates to the left. -/
theorem parse_exprF_power_example :
    parse_exprF 20 [Tok.floatLit (2:ℝ), .circumflex, .floatLit 3, .circumflex, .floatLit 2] 0 1 false
      = .ok (.Expr (.Expr (.FloatLiteral 2) .Pow (.FloatLiteral 3)) .Pow (.FloatLiteral 2), 5) := rfl

/-- Declaration statement, from Parser::parse_declaration lines 363-368:
consume the identifier and the equals sign, then parse the initializer. -/
def parse_declarationF {α : Type} (fuel : Nat) (toks : List (Tok α)) (idx : Nat)
    (name : String) : Except (PFail α) (Parsed α × Nat) :=
  match peekT toks idx with
  | none => .error (.perr .EOF)
  | some _ =>
    match peekT toks (idx + 1) with
    | none => .error (.perr .EOF)
    | some _ =>
      bindE (parse_exprF fuel toks (idx + 2) 1 false) fun p =>
        .ok (.Declaration name p.1, p.2)

/-- Parameter loop of parse_function_declaration, parser.rs lines 375-383:
until a right parenthesis, record identifier tokens and silently consume
anything else. -/
def paramsLoopF {α : Type} : Nat → List (Tok α) → Nat → List String →
    Except (PFail α) (List String × Nat)
  | 0, _, _, _ => .error .fuelOut
  | fuel + 1, toks, idx, acc =>
    match peekT toks idx with
    | none => .ok (acc, idx)
    | some .rparen => .ok (acc, idx)
    | some (.ident n) => paramsLoopF fuel toks (idx + 1) (acc ++ [n])
    | some _ => paramsLoopF fuel toks (idx + 1) acc
termination_by structural fuel _ _ _ => fuel

/-- Function declaration, from Parser::parse_function_declaration lines
370-388: consume the identifier and left parenthesis, read the parameter
list, consume the right parenthesis and the token after it (the equals sign,
unchecked), then parse the body expression. -/
def parse_function_declarationF {α : Type} (fuel : Nat) (toks : List (Tok α)) (idx : Nat)
    (name : String) : Except (PFail α) (Parsed α × Nat) :=
  match peekT toks idx, peekT toks (idx + 1) with
  | some _, some _ =>
    bindE (paramsLoopF fuel toks (idx + 2) []) fun pp =>
      match peekT toks pp.2 with
      | none => .error (.perr .EOF)
      | some _ =>
        match peekT toks (pp.2 + 1) with
        | none => .error (.perr .EOF)
        | some _ =>
          bindE (parse_exprF fuel toks (pp.2 + 2) 1 true) fun p =>
            .ok (.FunctionDecleration name pp.1 p.1, p.2)
  | _, _ => .error (.perr .EOF)

/-- Print-expression statement, from Parser::parse_print lines 390-395. -/
def parse_printF {α : Type} (fuel : Nat) (toks : List (Tok α)) (idx : Nat) :
    Except (PFail α) (Parsed α × Nat) :=
  bindE (parse_exprF fuel toks idx 1 false) fun p => .ok (.PrintExpr p.1, p.2)

/-- Scan of line_contains_equals, parser.rs lines 397-413: step forward from
the current position for at most k tokens, stopping at a newline (false) or
an equals sign (true). -/
def lceGo {α : Type} (toks : List (Tok α)) : Nat → Nat → Bool
  | _, 0 => false
  | pos, k + 1 =>
    match peekT toks pos with
    | none => false
    | some .newline => false
    | some .equals => true
    | some _ => lceGo toks (pos + 1) k

/-- Lookahead for an equals sign on the current logical line; the scan bound
mirrors the source expression tokens.len() - index - 1 with truncated
subtraction. -/
def line_contains_equals {α : Type} (toks : List (Tok α)) (idx : Nat) : Bool :=
  lceGo toks idx (toks.length - idx - 1)

/-- Comment skipping inside a block, parser.rs lines 263-268: consume tokens
while the current token exists and is not a newline. -/
def skipToNewlineF {α : Type} : Nat → List (Tok α) → Nat → Except (PFail α) Nat
  | 0, _, _ => .error .fuelOut
  | fuel + 1, toks, pos =>
    match peekT toks pos with
    | none => .ok pos
    | some .newline => .ok pos
    | some _ => skipToNewlineF fuel toks (pos + 1)
termination_by structural fuel _ _ => fuel

/-- Comment handling at top level, parser.rs lines 470-474: consume tokens
while the current token is a newline.  This is the loop as written in the
source; it never consumes the comment token itself. -/
def skipNewlinesTopF {α : Type} : Nat → List (Tok α) → Nat → Except (PFail α) Nat
  | 0, _, _ => .error .fuelOut
  | fuel + 1, toks, pos =>
    match peekT toks pos with
    | some .newline => skipNewlinesTopF fuel toks (pos + 1)
    | _ => .ok pos
termination_by structural fuel _ _ => fuel

mutual
/-- Block parsing, from Parser::parse_block lines 220-278: one unconditional
consume (the opening brace position), then the statement loop. -/
def parse_blockF {α : Type} [LinearOrderedField α] : Nat → List (Tok α) → Nat →
    Except (PFail α) (List (Parsed α) × Nat)
  | 0, _, _ => .error .fuelOut
  | fuel + 1, toks, idx =>
    match peekT toks idx with
    | none => .error (.perr .EOF)
    | some _ => parseBlockLoopF fuel toks (idx + 1) []
termination_by structural fuel _ _ => fuel

/-- Statement loop of parse_block: until a right brace, dispatch on the
current token; identifiers start declarations, function declarations or
print-expressions, only the keyword from is accepted among keywords, float
literals print, comments skip to the newline, newlines are consumed, and
every other token reaches the todo panic of parser.rs line 272. -/
def parseBlockLoopF {α : Type} [LinearOrderedField α] : Nat → List (Tok α) → Nat →
    List (Parsed α) → Except (PFail α) (List (Parsed α) × Nat)
  | 0, _, _, _ => .error .fuelOut
  | fuel + 1, toks, pos, acc =>
    match peekT toks pos with
    | none => .error (.perr .EOF)
    | some .rbrace => .ok (acc, pos + 1)
    | some (.ident name) =>
      match peekT toks (pos + 1) with
      | some .equals =>
        bindE (parse_declarationF fuel toks pos name) fun p =>
          parseBlockLoopF fuel toks p.2 (acc ++ [p.1])
      | some .lparen =>
        if line_contains_equals toks pos then
          bindE (parse_function_declarationF fuel toks pos name) fun p =>
            parseBlockLoopF fuel toks p.2 (acc ++ [p.1])
        else
          bindE (parse_printF fuel toks pos) fun p =>
            parseBlockLoopF fuel toks p.2 (acc ++ [p.1])
      | _ =>
        bindE (parse_printF fuel toks pos) fun p =>
          parseBlockLoopF fuel toks p.2 (acc ++ [p.1])
    | some (.keyword k) =>
      if k ≠ "from" then .error (.perr (.UnexpectedKeyword k))
      else
        bindE (parse_from_blockF fuel toks pos) fun p =>
          parseBlockLoopF fuel toks p.2 (acc ++ [p.1])
    | some (.floatLit _) =>
      bindE (parse_printF fuel toks pos) fun p =>
        parseBlockLoopF fuel toks p.2 (acc ++ [p.1])
    | some .comment =>
      bindE (skipToNewlineF fuel toks pos) fun q =>
        parseBlockLoopF fuel toks q acc
    | some .newline => parseBlockLoopF fuel toks (pos + 1) acc
    | some _ => .error .fatal
termination_by structural fuel _ _ _ => fuel

/-- Counted-range-loop header, from Parser::parse_from_block lines 300-361:
consume from, parse the minimum, expect the keyword to, parse the maximum,
expect the keyword as, parse the loop-variable expression, then the optional
with step clause (default step literal 1.0), one unconditional consume, and
the body block. -/
def parse_from_blockF {α : Type} [LinearOrderedField α] : Nat → List (Tok α) → Nat →
    Except (PFail α) (Parsed α × Nat)
  | 0, _, _ => .error .fuelOut
  | fuel + 1, toks, idx =>
    match peekT toks idx with
    | none => .error (.perr .EOF)
    | some _ =>
      bindE (parse_exprF fuel toks (idx + 1) 1 false) fun pmin =>
        match peekT toks pmin.2 with
        | none => .error (.perr .EOF)
        | some (.keyword k) =>
          if k ≠ "to" then .error (.perr (.ExpectedGot "to" k))
          else
            bindE (parse_exprF fuel toks (pmin.2 + 1) 1 false) fun pmax =>
              match peekT toks pmax.2 with
              | none => .error (.perr .EOF)
              | some (.keyword k2) =>
                if k2 ≠ "as" then .error (.perr (.ExpectedGot "as" k2))
                else
                  bindE (parse_exprF fuel toks (pmax.2 + 1) 1 false) fun pident =>
                    match peekT toks pident.2 with
                    | none => .error (.perr .EOF)
                    | some (.keyword k3) =>
                      if k3 = "with" then
                        match peekT toks (pident.2 + 1) with
                        | none => .error (.perr .EOF)
                        | some (.keyword k4) =>
                          if k4 = "step" then
                            bindE (parse_exprF fuel toks (pident.2 + 2) 1 false) fun pstep =>
                              match peekT toks pstep.2 with
                              | none => .error (.perr .EOF)
                              | some _ =>
                                parseFromTailF fuel toks pmin.1 pmax.1 pident.1 pstep.1
                                  (pstep.2 + 1)
                          else .error (.perr (.ExpectedGot "step" k4))
                        | some t4 => .error (.perr (.ExpectedGotToken "step" t4))
                      else
                        parseFromTailF fuel toks pmin.1 pmax.1 pident.1
                          (Expr.FloatLiteral 1) pident.2
                    | some _ =>
                      parseFromTailF fuel toks pmin.1 pmax.1 pident.1
                        (Expr.FloatLiteral 1) pident.2
              | some _ => .error (.perr (.Expected "as"))
        | some _ => .error (.perr (.Expected "to"))
termination_by structural fuel _ _ => fuel

/-- Tail of parse_from_block: the unconditional consume at parser.rs line 356
followed by the body block, assembling the FromLoop statement. -/
def parseFromTailF {α : Type} [LinearOrderedField α] : Nat → List (Tok α) →
    Expr α → Expr α → Expr α → Expr α → Nat → Except (PFail α) (Parsed α × Nat)
  | 0, _, _, _, _, _, _ => .error .fuelOut
  | fuel + 1, toks, mn, mx, ident, stp, pos =>
    match peekT toks pos with
    | none => .error (.perr .EOF)
    | some _ =>
      bindE (parse_blockF fuel toks (pos + 1)) fun pb =>
        .ok (.FromLoop mn mx ident stp pb.1, pb.2)
termination_by structural fuel _ _ _ _ _ _ => fuel
end

/-- List-iteration loop, from Parser::parse_for_block lines 280-298: consume
for, parse the loop-variable expression, expect the keyword in, parse the
list expression, then the body block. -/
def parse_for_blockF {α : Type} [LinearOrderedField α] (fuel : Nat) (toks : List (Tok α))
    (idx : Nat) : Except (PFail α) (Parsed α × Nat) :=
  match peekT toks idx with
  | none => .error (.perr .EOF)
  | some _ =>
    bindE (parse_exprF fuel toks (idx + 1) 1 false) fun pident =>
      match peekT toks pident.2 with
      | none => .error (.perr .EOF)
      | some (.keyword k) =>
        if k ≠ "in" then .error (.perr (.ExpectedGot "in" k))
        else
          bindE (parse_exprF fuel toks (pident.2 + 1) 1 false) fun plist =>
            bindE (parse_blockF fuel toks plist.2) fun pb =>
              .ok (.ForLoop pident.1 plist.1 pb.1, pb.2)
      | some _ => .error (.perr (.Expected "in"))

/-- Top-level statement loop, from Parser::parse lines 415-487.  The comment
arm consumes tokens only while the current token is a newline, exactly as
written in the source. -/
def parseTopF {α : Type} [LinearOrderedField α] : Nat → List (Tok α) → Nat →
    List (Parsed α) → Except (PFail α) (List (Parsed α))
  | 0, _, _, _ => .error .fuelOut
  | fuel + 1, toks, pos, acc =>
    match peekT toks pos with
    | none => .ok acc
    | some (.ident name) =>
      match peekT toks (pos + 1) with
      | some .equals =>
        bindE (parse_declarationF fuel toks pos name) fun p =>
          parseTopF fuel toks p.2 (acc ++ [p.1])
      | some .lparen =>
        if line_contains_equals toks pos then
          bindE (parse_function_declarationF fuel toks pos name) fun p =>
            parseTopF fuel toks p.2 (acc ++ [p.1])
        else
          bindE (parse_printF fuel toks pos) fun p =>
            parseTopF fuel toks p.2 (acc ++ [p.1])
      | _ =>
        bindE (parse_printF fuel toks pos) fun p =>
          parseTopF fuel toks p.2 (acc ++ [p.1])
    | some (.keyword k) =>
      if k = "from" then
        bindE (parse_from_blockF fuel toks pos) fun p =>
          parseTopF fuel toks p.2 (acc ++ [p.1])
      else if k = "for" then
        bindE (parse_for_blockF fuel toks pos) fun p =>
          parseTopF fuel toks p.2 (acc ++ [p.1])
      else .error (.perr (.ExpectedGot "for" k))
    | some .lbracket =>
      if line_contains_equals toks pos then
        bindE (parse_exprF fuel toks pos 1 false) fun pl =>
          match peekT toks pl.2 with
          | none => .error (.perr .EOF)
          | some _ =>
            bindE (parse_exprF fuel toks (pl.2 + 1) 1 false) fun pr =>
              parseTopF fuel toks pr.2 (acc ++ [.Destructuring pl.1 pr.1])
      else
        bindE (parse_printF fuel toks pos) fun p =>
          parseTopF fuel toks p.2 (acc ++ [p.1])
    | some (.floatLit _) =>
      bindE (parse_printF fuel toks pos) fun p =>
        parseTopF fuel toks p.2 (acc ++ [p.1])
    | some .lparen =>
      bindE (parse_printF fuel toks pos) fun p =>
        parseTopF fuel toks p.2 (acc ++ [p.1])
    | some .comment =>
      bindE (skipNewlinesTopF fuel toks pos) fun q =>
        parseTopF fuel toks q acc
    | some .newline => parseTopF fuel toks (pos + 1) acc
    | some .lbrace =>
      bindE (parse_blockF fuel toks pos) fun pb =>
        parseTopF fuel toks pb.2 (acc ++ [.Block pb.1])
    | some _ => .error .fatal
termination_by structural fuel _ _ _ => fuel

/-- Sanity check: the counted range loop of the C3 example parses. -/
theorem parse_from_blockF_example :
    parse_from_blockF 40
      [Tok.keyword "from", .floatLit (0:ℝ), .keyword "to", .floatLit 3, .keyword "as",
       .ident "i", .keyword "with", .keyword "step", .floatLit 1.5, .newline, .lbrace,
       .newline, .ident "i", .newline, .rbrace] 0
      = .ok (.FromLoop (.FloatLiteral 0) (.FloatLiteral 3) (.Ident "i") (.FloatLiteral 1.5)
          [.PrintExpr (.Ident "i")], 15) := rfl

/-! Interpreter embedding, from interpreter.rs.  The two HashMaps of the
Interpreter struct are modelled as association lists with insert-replace,
lookup-first and remove-all operations; since insert replaces any existing
entry, keys never repeat and the operations agree with the HashMap ones. -/

/-- Association-list lookup, as HashMap::get. -/
def lookupA {β : Type} : List (String × β) → String → Option β
  | [], _ => none
  | (k, v) :: rest, s => if k = s then some v else lookupA rest s

/-- Association-list insert, as HashMap::insert: replace an existing entry or
append a new one. -/
def insertA {β : Type} : List (String × β) → String → β → List (String × β)
  | [], k, v => [(k, v)]
  | (k0, v0) :: rest, k, v =>
    if k0 = k then (k, v) :: rest else (k0, v0) :: insertA rest k v

/-- Association-list removal, as HashMap::remove. -/
def removeA {β : Type} : List (String × β) → String → List (String × β)
  | [], _ => []
  | (k0, v0) :: rest, k =>
    if k0 = k then removeA rest k else (k0, v0) :: removeA rest k

/-- Association-list update-if-present, as HashMap::get_mut followed by an
assignment, interpreter.rs lines 391-393: an absent key is left absent. -/
def updateA {β : Type} : List (String × β) → String → β → List (String × β)
  | [], _, _ => []
  | (k0, v0) :: rest, k, v =>
    if k0 = k then (k, v) :: rest else (k0, v0) :: updateA rest k v

/-- Interpreter state: the variables and functions maps of the Interpreter
struct (interpreter.rs lines 146-150), under the field names vars and funcs
because the word variables is reserved in Lean. -/
structure EState (α : Type) where
  vars : List (String × Data α)
  funcs : List (String × (List String × Expr α))

/-- Variable resolution, from Interpreter::get_variable lines 163-176: the
reserved constants PI, TAU and GLR resolve first, then the variables map. -/
def get_variable {α : Type} [LinearOrderedField α] (ops : ScalarOps α) (st : EState α)
    (name : String) : Option (Data α) :=
  if name = "PI" then some (.Float ops.piv)
  else if name = "TAU" then some (.Float (ops.piv * 2))
  else if name = "GLR" then some (.Float 1.618033988749894)
  else lookupA st.vars name

/-- Function-name check, from Interpreter::function_exits lines 314-319: the
three built-in trigonometric names, then the functions map. -/
def function_exits {α : Type} (st : EState α) (name : String) : Bool :=
  if name = "sin" ∨ name = "cos" ∨ name = "tan" then true
  else (lookupA st.funcs name).isSome

mutual
/-- Conversion of a runtime value back into an expression tree, from the
Into Expr implementation for Data, interpreter.rs lines 37-44. -/
def dataToExpr {α : Type} : Data α → Expr α
  | .Float v => .FloatLiteral v
  | .List ds => .List (dataToExprList ds)

/-- List part of dataToExpr. -/
def dataToExprList {α : Type} : List (Data α) → List (Expr α)
  | [] => []
  | d :: ds => dataToExpr d :: dataToExprList ds
end

mutual
/-- Structure-preserving map of a scalar function over a value, from
apply_func in interpreter.rs lines 132-142. -/
def apply_func {α : Type} (func : α → Data α) : Data α → Data α
  | .Float v => func v
  | .List ds => .List (apply_funcList func ds)

/-- List part of apply_func. -/
def apply_funcList {α : Type} (func : α → Data α) : List (Data α) → List (Data α)
  | [] => []
  | d :: ds => apply_func func d :: apply_funcList func ds
end

/-- First parameter-argument pair whose parameter equals the name, from the
zip loop of transform_fn_expr, interpreter.rs lines 187-192; zip truncates to
the shorter list. -/
def findParamArg {α : Type} : List String → List (Expr α) → String → Option (Expr α)
  | [], _, _ => none
  | _, [], _ => none
  | p :: ps, a :: as, n => if p = n then some a else findParamArg ps as n

mutual
/-- Function-body transformation, from Interpreter::transform_fn_expr lines
178-230: parameter identifiers are replaced by the matching call-site
argument expression; other identifiers are replaced by the expression form
of their current value (undefined ones fail); a nested function call is
replaced by transforming the callee body against the untransformed call
arguments (an undefined callee fails); binary expressions and lists recurse;
literals are copied. -/
def transformF {α : Type} [LinearOrderedField α] (ops : ScalarOps α) (st : EState α) :
    Nat → List String → List (Expr α) → Expr α → Except Failure (Expr α)
  | 0, _, _, _ => .error .fuelOut
  | fuel + 1, ps, args, e =>
    match e with
    | .Ident name =>
      match findParamArg ps args name with
      | some v => .ok v
      | none =>
        match get_variable ops st name with
        | some d => .ok (dataToExpr d)
        | none => .error (.err (.UndefinedVariable name))
    | .FunctionCall name args2 =>
      match lookupA st.funcs name with
      | some pb => transformF ops st fuel pb.1 args2 pb.2
      | none => .error (.err (.UndefinedFunction name))
    | .Expr l op r =>
      bindE (transformF ops st fuel ps args l) fun l2 =>
        bindE (transformF ops st fuel ps args r) fun r2 => .ok (.Expr l2 op r2)
    | .List es =>
      bindE (transformListF ops st fuel ps args es) fun es2 => .ok (.List es2)
    | .FloatLiteral _ => .ok e
    | .NegFloatLiteral _ => .ok e
termination_by structural fuel _ _ _ => fuel

/-- List part of transform_fn_expr (interpreter.rs lines 215-225): an element
failure becomes a panic through the unwrap_or_else wrapper. -/
def transformListF {α : Type} [LinearOrderedField α] (ops : ScalarOps α) (st : EState α) :
    Nat → List String → List (Expr α) → List (Expr α) → Except Failure (List (Expr α))
  | 0, _, _, _ => .error .fuelOut
  | fuel + 1, ps, args, es =>
    match es with
    | [] => .ok []
    | e :: rest =>
      match transformF ops st fuel ps args e with
      | .ok e2 =>
        bindE (transformListF ops st fuel ps args rest) fun es2 => .ok (e2 :: es2)
      | .error .fuelOut => .error .fuelOut
      | .error _ => .error .panic
termination_by structural fuel _ _ _ => fuel
end

mutual
/-- Expression evaluation, from Interpreter::evaluate_expr lines 232-305:
identifiers resolve through get_variable; literals yield their value (the
negative literal multiplies by -1.0); binary expressions evaluate both sides
then apply the broadcasting operator; calls to sin, cos and tan reject more
than one argument, index the first argument (a panic when there is none) and
map the function over the value; other calls look up the user function,
require matching arity, transform the body and evaluate the result; list
literals evaluate elementwise with failures panicking. -/
def evaluate_exprF {α : Type} [LinearOrderedField α] (ops : ScalarOps α) (st : EState α) :
    Nat → Expr α → Except Failure (Data α)
  | 0, _ => .error .fuelOut
  | fuel + 1, e =>
    match e with
    | .Ident name =>
      match get_variable ops st name with
      | some d => .ok d
      | none => .error (.err (.UndefinedVariable name))
    | .FloatLiteral v => .ok (.Float v)
    | .NegFloatLiteral v => .ok (.Float (-1 * v))
    | .Expr l op r =>
      bindE (evaluate_exprF ops st fuel l) fun a =>
        bindE (evaluate_exprF ops st fuel r) fun b => apply_op ops a b op
    | .FunctionCall name args =>
      if name = "sin" then
        if args.length > 1 then .error (.err (.InvalidArguments "sin"))
        else
          match args with
          | [] => .error .panic
          | a :: _ =>
            bindE (evaluate_exprF ops st fuel a) fun v =>
              .ok (apply_func (fun x => .Float (ops.sinf x)) v)
      else if name = "cos" then
        if args.length > 1 then .error (.err (.InvalidArguments "cos"))
        else
          match args with
          | [] => .error .panic
          | a :: _ =>
            bindE (evaluate_exprF ops st fuel a) fun v =>
              .ok (apply_func (fun x => .Float (ops.cosf x)) v)
      else if name = "tan" then
        if args.length > 1 then .error (.err (.InvalidArguments "tan"))
        else
          match args with
          | [] => .error .panic
          | a :: _ =>
            bindE (evaluate_exprF ops st fuel a) fun v =>
              .ok (apply_func (fun x => .Float (ops.tanf x)) v)
      else
        match lookupA st.funcs name with
        | none => .error (.err (.UndefinedFunction name))
        | some pb =>
          if args.length ≠ pb.1.length then .error (.err (.InvalidArguments name))
          else
            bindE (transformF ops st fuel pb.1 args pb.2) fun t =>
              evaluate_exprF ops st fuel t
    | .List es => bindE (evalListF ops st fuel es) fun vs => .ok (.List vs)
termination_by structural fuel _ => fuel

/-- List-literal evaluation (interpreter.rs lines 293-303): an element
failure becomes a panic through the unwrap_or_else wrapper. -/
def evalListF {α : Type} [LinearOrderedField α] (ops : ScalarOps α) (st : EState α) :
    Nat → List (Expr α) → Except Failure (List (Data α))
  | 0, _ => .error .fuelOut
  | fuel + 1, es =>
    match es with
    | [] => .ok []
    | e :: rest =>
      match evaluate_exprF ops st fuel e with
      | .ok v => bindE (evalListF ops st fuel rest) fun vs => .ok (v :: vs)
      | .error .fuelOut => .error .fuelOut
      | .error _ => .error .panic
termination_by structural fuel _ => fuel
end

/-- Failures of statement execution, one constructor per error site of
Interpreter::execute_block (lines 321-449), plus propagated evaluation
failures. -/
inductive XFail where
  | ev (f : Failure)
  | redeclVar (name : String)
  | redeclFn (name : String)
  | fromLoopList
  | expectedList
  | expectedIdent
  | destructTooFew
  | destructNotLists
  | destructOnlyIdents
deriving DecidableEq, Repr

/-- Scope cleanup, from Interpreter::clean_scope lines 307-312: remove every
recorded name from both maps. -/
def clean_scope {α : Type} (st : EState α) : List String → EState α
  | [] => st
  | n :: rest => clean_scope ⟨removeA st.vars n, removeA st.funcs n⟩ rest

/-- Destructuring pair loop, interpreter.rs lines 430-441: each left element
must be an identifier not already present in the variables map (the reserved
constants are not consulted here), and each right expression is evaluated
and bound in order, leaving earlier bindings in place on failure. -/
def execDestrPairsF {α : Type} [LinearOrderedField α] (ops : ScalarOps α) (fuel : Nat) :
    EState α → List (Expr α) → List (Expr α) → Except XFail (EState α)
  | st, [], _ => .ok st
  | st, _, [] => .ok st
  | st, l :: ls, r :: rs =>
    match l with
    | .Ident name =>
      match lookupA st.vars name with
      | some _ => .error (.redeclVar name)
      | none =>
        match evaluate_exprF ops st fuel r with
        | .ok d => execDestrPairsF ops fuel ⟨insertA st.vars name d, st.funcs⟩ ls rs
        | .error f => .error (.ev f)
    | _ => .error .destructOnlyIdents

mutual
/-- Statement-list execution, from the loop of Interpreter::execute_block
lines 321-449: statements run in order, printed values accumulate, and the
names each statement introduces accumulate into the scope that is returned
to the caller. -/
def execute_blockF {α : Type} [LinearOrderedField α] (ops : ScalarOps α) :
    Nat → EState α → List (Parsed α) →
      List (Data α) × Except XFail (List String × EState α)
  | 0, _, _ => ([], .error (.ev .fuelOut))
  | _ + 1, st, [] => ([], .ok ([], st))
  | fuel + 1, st, p :: rest =>
    match execStmtF ops fuel st p with
    | (out1, .error e) => (out1, .error e)
    | (out1, .ok (sc1, st1)) =>
      match execute_blockF ops fuel st1 rest with
      | (out2, .error e) => (out1 ++ out2, .error e)
      | (out2, .ok (sc2, st2)) => (out1 ++ out2, .ok (sc1 ++ sc2, st2))
termination_by structural fuel _ _ => fuel

/-- Execution of one statement, the match of Interpreter::execute_block.  A
declaration rejects a name resolvable through get_variable, else binds the
evaluated initializer and records the name.  A function declaration rejects
a name passing function_exits, else stores the parameters and body and
records the name.  A print evaluates and emits the value.  A counted range
loop evaluates min, max and step once (lists rejected), binds the loop
variable to min, iterates, and removes the binding afterwards.  A nested
block runs as a sub-scope that is cleaned up.  A list-iteration loop
evaluates the list (a scalar is rejected), unwraps its first element (a
panic when empty), iterates over the remainder, and removes the binding.  A
destructuring requires two list expressions of equal length and binds the
pairs in order. -/
def execStmtF {α : Type} [LinearOrderedField α] (ops : ScalarOps α) :
    Nat → EState α → Parsed α →
      List (Data α) × Except XFail (List String × EState α)
  | 0, _, _ => ([], .error (.ev .fuelOut))
  | fuel + 1, st, p =>
    match p with
    | .Declaration name init =>
      match get_variable ops st name with
      | some _ => ([], .error (.redeclVar name))
      | none =>
        match evaluate_exprF ops st fuel init with
        | .error f => ([], .error (.ev f))
        | .ok d => ([], .ok ([name], ⟨insertA st.vars name d, st.funcs⟩))
    | .PrintExpr e =>
      match evaluate_exprF ops st fuel e with
      | .error f => ([], .error (.ev f))
      | .ok d => ([d], .ok ([], st))
    | .FunctionDecleration name params body =>
      if function_exits st name then ([], .error (.redeclFn name))
      else ([], .ok ([name], ⟨st.vars, insertA st.funcs name (params, body)⟩))
    | .FromLoop mnE mxE identE stpE body =>
      match evaluate_exprF ops st fuel mnE with
      | .error f => ([], .error (.ev f))
      | .ok (.List _) => ([], .error .fromLoopList)
      | .ok (.Float mn) =>
        match evaluate_exprF ops st fuel mxE with
        | .error f => ([], .error (.ev f))
        | .ok (.List _) => ([], .error .fromLoopList)
        | .ok (.Float mx) =>
          match evaluate_exprF ops st fuel stpE with
          | .error f => ([], .error (.ev f))
          | .ok (.List _) => ([], .error .fromLoopList)
          | .ok (.Float stp) =>
            match identE with
            | .Ident name =>
              match execFromF ops fuel ⟨insertA st.vars name (.Float mn), st.funcs⟩
                  name mn mx stp body with
              | (out1, .error e) => (out1, .error e)
              | (out1, .ok st2) =>
                (out1, .ok ([], ⟨removeA st2.vars name, st2.funcs⟩))
            | _ => ([], .error (.ev .panic))
    | .Block body =>
      match execute_blockF ops fuel st body with
      | (out1, .error e) => (out1, .error e)
      | (out1, .ok (sc, st1)) => (out1, .ok ([], clean_scope st1 sc))
    | .ForLoop identE listE body =>
      match evaluate_exprF ops st fuel listE with
      | .error f => ([], .error (.ev f))
      | .ok (.Float _) => ([], .error .expectedList)
      | .ok (.List ds) =>
        match identE with
        | .Ident name =>
          match ds with
          | [] => ([], .error (.ev .panic))
          | d0 :: restDs =>
            match execForF ops fuel ⟨insertA st.vars name d0, st.funcs⟩
                name restDs body with
            | (out1, .error e) => (out1, .error e)
            | (out1, .ok st2) =>
              (out1, .ok ([], ⟨removeA st2.vars name, st2.funcs⟩))
        | _ => ([], .error .expectedIdent)
    | .Destructuring l r =>
      match l with
      | .List ls =>
        match r with
        | .List rs =>
          if ls.length ≠ rs.length then ([], .error .destructTooFew)
          else
            match execDestrPairsF ops fuel st ls rs with
            | .error e => ([], .error e)
            | .ok st1 => ([], .ok ([], st1))
        | _ => ([], .error .destructNotLists)
      | _ => ([], .error .destructNotLists)
termination_by structural fuel _ _ => fuel

/-- Iteration of the counted range loop, interpreter.rs lines 385-394: while
the current value is at most the maximum, run the body as a sub-scope that is
cleaned up, advance the current value by the step, and overwrite the loop
variable if it is still present. -/
def execFromF {α : Type} [LinearOrderedField α] (ops : ScalarOps α) :
    Nat → EState α → String → α → α → α → List (Parsed α) →
      List (Data α) × Except XFail (EState α)
  | 0, _, _, _, _, _, _ => ([], .error (.ev .fuelOut))
  | fuel + 1, st, name, i, mx, stp, body =>
    if i ≤ mx then
      match execute_blockF ops fuel st body with
      | (out1, .error e) => (out1, .error e)
      | (out1, .ok (sc, st1)) =>
        match execFromF ops fuel
            ⟨updateA (clean_scope st1 sc).vars name (.Float (i + stp)),
              (clean_scope st1 sc).funcs⟩ name (i + stp) mx stp body with
        | (out2, r) => (out1 ++ out2, r)
    else ([], .ok st)
termination_by structural fuel _ _ _ _ _ _ => fuel

/-- Iteration of the list loop over the elements after the first,
interpreter.rs lines 411-417: run the body as a cleaned-up sub-scope, then
overwrite the loop variable with the element if it is still present. -/
def execForF {α : Type} [LinearOrderedField α] (ops : ScalarOps α) :
    Nat → EState α → String → List (Data α) → List (Parsed α) →
      List (Data α) × Except XFail (EState α)
  | 0, _, _, _, _ => ([], .error (.ev .fuelOut))
  | fuel + 1, st, name, ds, body =>
    match ds with
    | [] => ([], .ok st)
    | d :: restDs =>
      match execute_blockF ops fuel st body with
      | (out1, .error e) => (out1, .error e)
      | (out1, .ok (sc, st1)) =>
        match execForF ops fuel
            ⟨updateA (clean_scope st1 sc).vars name d, (clean_scope st1 sc).funcs⟩
            name restDs body with
        | (out2, r) => (out1 ++ out2, r)
termination_by structural fuel _ _ _ _ => fuel
end

/-- Whole-program execution, from Interpreter::interpret lines 451-456: run
the top-level statement list as one block, then clean up its scope. -/
def interpretF {α : Type} [LinearOrderedField α] (ops : ScalarOps α) (fuel : Nat)
    (prog : List (Parsed α)) : List (Data α) × Except XFail (EState α) :=
  match execute_blockF ops fuel ⟨[], []⟩ prog with
  | (out, .error e) => (out, .error e)
  | (out, .ok (sc, st)) => (out, .ok (clean_scope st sc))

/-- Unfolding lemma for evaluate_exprF with the fuel guard as a condition,
convenient for stepping through concrete runs. -/
theorem evaluate_exprF_eq {α : Type} [LinearOrderedField α] (ops : ScalarOps α)
    (st : EState α) (fuel : Nat) (e : Expr α) :
    evaluate_exprF ops st fuel e =
      if fuel = 0 then .error .fuelOut
      else
        match e with
        | .Ident name =>
          match get_variable ops st name with
          | some d => .ok d
          | none => .error (.err (.UndefinedVariable name))
        | .FloatLiteral v => .ok (.Float v)
        | .NegFloatLiteral v => .ok (.Float (-1 * v))
        | .Expr l op r =>
          bindE (evaluate_exprF ops st (fuel - 1) l) fun a =>
            bindE (evaluate_exprF ops st (fuel - 1) r) fun b => apply_op ops a b op
        | .FunctionCall name args =>
          if name = "sin" then
            if args.length > 1 then .error (.err (.InvalidArguments "sin"))
            else
              match args with
              | [] => .error .panic
              | a :: _ =>
                bindE (evaluate_exprF ops st (fuel - 1) a) fun v =>
                  .ok (apply_func (fun x => .Float (ops.sinf x)) v)
          else if name = "cos" then
            if args.length > 1 then .error (.err (.InvalidArguments "cos"))
            else
              match args with
              | [] => .error .panic
              | a :: _ =>
                bindE (evaluate_exprF ops st (fuel - 1) a) fun v =>
                  .ok (apply_func (fun x => .Float (ops.cosf x)) v)
          else if name = "tan" then
            if args.length > 1 then .error (.err (.InvalidArguments "tan"))
            else
              match args with
              | [] => .error .panic
              | a :: _ =>
                bindE (evaluate_exprF ops st (fuel - 1) a) fun v =>
                  .ok (apply_func (fun x => .Float (ops.tanf x)) v)
          else
            match lookupA st.funcs name with
            | none => .error (.err (.UndefinedFunction name))
            | some pb =>
              if args.length ≠ pb.1.length then .error (.err (.InvalidArguments name))
              else
                bindE (transformF ops st (fuel - 1) pb.1 args pb.2) fun t =>
                  evaluate_exprF ops st (fuel - 1) t
        | .List es => bindE (evalListF ops st (fuel - 1) es) fun vs => .ok (.List vs) := by
  cases fuel with
  | zero => rfl
  | succ n => cases e <;> rfl

/-- Unfolding lemma for evalListF with the fuel guard as a condition. -/
theorem evalListF_eq {α : Type} [LinearOrderedField α] (ops : ScalarOps α)
    (st : EState α) (fuel : Nat) (es : List (Expr α)) :
    evalListF ops st fuel es =
      if fuel = 0 then .error .fuelOut
      else
        match es with
        | [] => .ok []
        | e :: rest =>
          match evaluate_exprF ops st (fuel - 1) e with
          | .ok v => bindE (evalListF ops st (fuel - 1) rest) fun vs => .ok (v :: vs)
          | .error .fuelOut => .error .fuelOut
          | .error _ => .error .panic := by
  cases fuel with
  | zero => rfl
  | succ n => cases es <;> rfl

/-- Unfolding lemma for transformF with the fuel guard as a condition. -/
theorem transformF_eq {α : Type} [LinearOrderedField α] (ops : ScalarOps α)
    (st : EState α) (fuel : Nat) (ps : List String) (args : List (Expr α)) (e : Expr α) :
    transformF ops st fuel ps args e =
      if fuel = 0 then .error .fuelOut
      else
        match e with
        | .Ident name =>
          match findParamArg ps args name with
          | some v => .ok v
          | none =>
            match get_variable ops st name with
            | some d => .ok (dataToExpr d)
            | none => .error (.err (.UndefinedVariable name))
        | .FunctionCall name args2 =>
          match lookupA st.funcs name with
          | some pb => transformF ops st (fuel - 1) pb.1 args2 pb.2
          | none => .error (.err (.UndefinedFunction name))
        | .Expr l op r =>
          bindE (transformF ops st (fuel - 1) ps args l) fun l2 =>
            bindE (transformF ops st (fuel - 1) ps args r) fun r2 => .ok (.Expr l2 op r2)
        | .List es =>
          bindE (transformListF ops st (fuel - 1) ps args es) fun es2 => .ok (.List es2)
        | .FloatLiteral _ => .ok e
        | .NegFloatLiteral _ => .ok e := by
  cases fuel with
  | zero => rfl
  | succ n => cases e <;> rfl

/-- Unfolding lemma for execute_blockF with the fuel guard as a condition. -/
theorem execute_blockF_eq {α : Type} [LinearOrderedField α] (ops : ScalarOps α)
    (fuel : Nat) (st : EState α) (block : List (Parsed α)) :
    execute_blockF ops fuel st block =
      if fuel = 0 then ([], .error (.ev .fuelOut))
      else
        match block with
        | [] => ([], .ok ([], st))
        | p :: rest =>
          match execStmtF ops (fuel - 1) st p with
          | (out1, .error e) => (out1, .error e)
          | (out1, .ok (sc1, st1)) =>
            match execute_blockF ops (fuel - 1) st1 rest with
            | (out2, .error e) => (out1 ++ out2, .error e)
            | (out2, .ok (sc2, st2)) => (out1 ++ out2, .ok (sc1 ++ sc2, st2)) := by
  cases fuel with
  | zero => rfl
  | succ n => cases block <;> rfl

/-- Unfolding lemma for execFromF with the fuel guard as a condition. -/
theorem execFromF_eq {α : Type} [LinearOrderedField α] (ops : ScalarOps α)
    (fuel : Nat) (st : EState α) (name : String) (i mx stp : α) (body : List (Parsed α)) :
    execFromF ops fuel st name i mx stp body =
      if fuel = 0 then ([], .error (.ev .fuelOut))
      else
        if i ≤ mx then
          match execute_blockF ops (fuel - 1) st body with
          | (out1, .error e) => (out1, .error e)
          | (out1, .ok (sc, st1)) =>
            match execFromF ops (fuel - 1)
                ⟨updateA (clean_scope st1 sc).vars name (.Float (i + stp)),
                  (clean_scope st1 sc).funcs⟩ name (i + stp) mx stp body with
            | (out2, r) => (out1 ++ out2, r)
        else ([], .ok st) := by
  cases fuel with
  | zero => rfl
  | succ n => rfl

/-- Unfolding lemma for execForF with the fuel guard as a condition. -/
theorem execForF_eq {α : Type} [LinearOrderedField α] (ops : ScalarOps α)
    (fuel : Nat) (st : EState α) (name : String) (ds : List (Data α)) (body : List (Parsed α)) :
    execForF ops fuel st name ds body =
      if fuel = 0 then ([], .error (.ev .fuelOut))
      else
        match ds with
        | [] => ([], .ok st)
        | d :: restDs =>
          match execute_blockF ops (fuel - 1) st body with
          | (out1, .error e) => (out1, .error e)
          | (out1, .ok (sc, st1)) =>
            match execForF ops (fuel - 1)
                ⟨updateA (clean_scope st1 sc).vars name d, (clean_scope st1 sc).funcs⟩
                name restDs body with
            | (out2, r) => (out1 ++ out2, r) := by
  cases fuel with
  | zero => rfl
  | succ n => cases ds <;> rfl

/-- Unfolding lemma for execStmtF with the fuel guard as a condition. -/
theorem execStmtF_eq {α : Type} [LinearOrderedField α] (ops : ScalarOps α)
    (fuel : Nat) (st : EState α) (p : Parsed α) :
    execStmtF ops fuel st p =
      if fuel = 0 then ([], .error (.ev .fuelOut))
      else
        match p with
        | .Declaration name init =>
          match get_variable ops st name with
          | some _ => ([], .error (.redeclVar name))
          | none =>
            match evaluate_exprF ops st (fuel - 1) init with
            | .error f => ([], .error (.ev f))
            | .ok d => ([], .ok ([name], ⟨insertA st.vars name d, st.funcs⟩))
        | .PrintExpr e =>
          match evaluate_exprF ops st (fuel - 1) e with
          | .error f => ([], .error (.ev f))
          | .ok d => ([d], .ok ([], st))
        | .FunctionDecleration name params body =>
          if function_exits st name then ([], .error (.redeclFn name))
          else ([], .ok ([name], ⟨st.vars, insertA st.funcs name (params, body)⟩))
        | .FromLoop mnE mxE identE stpE body =>
          match evaluate_exprF ops st (fuel - 1) mnE with
          | .error f => ([], .error (.ev f))
          | .ok (.List _) => ([], .error .fromLoopList)
          | .ok (.Float mn) =>
            match evaluate_exprF ops st (fuel - 1) mxE with
            | .error f => ([], .error (.ev f))
            | .ok (.List _) => ([], .error .fromLoopList)
            | .ok (.Float mx) =>
              match evaluate_exprF ops st (fuel - 1) stpE with
              | .error f => ([], .error (.ev f))
              | .ok (.List _) => ([], .error .fromLoopList)
              | .ok (.Float stp) =>
                match identE with
                | .Ident name =>
                  match execFromF ops (fuel - 1) ⟨insertA st.vars name (.Float mn), st.funcs⟩
                      name mn mx stp body with
                  | (out1, .error e) => (out1, .error e)
                  | (out1, .ok st2) =>
                    (out1, .ok ([], ⟨removeA st2.vars name, st2.funcs⟩))
                | _ => ([], .error (.ev .panic))
        | .Block body =>
          match execute_blockF ops (fuel - 1) st body with
          | (out1, .error e) => (out1, .error e)
          | (out1, .ok (sc, st1)) => (out1, .ok ([], clean_scope st1 sc))
        | .ForLoop identE listE body =>
          match evaluate_exprF ops st (fuel - 1) listE with
          | .error f => ([], .error (.ev f))
          | .ok (.Float _) => ([], .error .expectedList)
          | .ok (.List ds) =>
            match identE with
            | .Ident name =>
              match ds with
              | [] => ([], .error (.ev .panic))
              | d0 :: restDs =>
                match execForF ops (fuel - 1) ⟨insertA st.vars name d0, st.funcs⟩
                    name restDs body with
                | (out1, .error e) => (out1, .error e)
                | (out1, .ok st2) =>
                  (out1, .ok ([], ⟨removeA st2.vars name, st2.funcs⟩))
            | _ => ([], .error .expectedIdent)
        | .Destructuring l r =>
          match l with
          | .List ls =>
            match r with
            | .List rs =>
              if ls.length ≠ rs.length then ([], .error .destructTooFew)
              else
                match execDestrPairsF ops (fuel - 1) st ls rs with
                | .error e => ([], .error e)
                | .ok st1 => ([], .ok ([], st1))
            | _ => ([], .error .destructNotLists)
          | _ => ([], .error .destructNotLists) := by
  cases fuel with
  | zero => rfl
  | succ n => cases p <;> rfl

theorem fromLoopBodyRun (x : ℝ) (n : Nat) :
    execute_blockF realOps (n + 3) ⟨[("i", Data.Float x)], []⟩ [.PrintExpr (.Ident "i")]
      = ([Data.Float x], .ok ([], ⟨[("i", Data.Float x)], []⟩)) := by
  rw [execute_blockF_eq, if_neg (show ¬(n + 3 = 0) by omega),
    show n + 3 - 1 = n + 2 from by omega]
  dsimp only
  rw [execStmtF_eq, if_neg (show ¬(n + 2 = 0) by omega),
    show n + 2 - 1 = n + 1 from by omega]
  dsimp only
  rw [evaluate_exprF_eq, if_neg (show ¬(n + 1 = 0) by omega)]
  simp [get_variable, lookupA, bindE, String.reduceEq]
  rw [execute_blockF_eq, if_neg (show ¬(n + 2 = 0) by omega)]

theorem fromLoopIter3 (n : Nat) :
    execFromF realOps (n + 4) ⟨[("i", Data.Float 3)], []⟩ "i" 3 3 (3/2)
      [.PrintExpr (.Ident "i")]
      = ([Data.Float 3], .ok ⟨[("i", Data.Float (9/2))], []⟩) := by
  rw [execFromF_eq, if_neg (show ¬(n + 4 = 0) by omega),
    if_pos (show (3:ℝ) ≤ 3 by norm_num),
    show n + 4 - 1 = n + 3 from by omega]
  rw [fromLoopBodyRun 3 n]
  dsimp only
  simp only [clean_scope, updateA, String.reduceEq, if_true, reduceIte]
  rw [show (3 + 3/2 : ℝ) = 9/2 by norm_num]
  rw [execFromF_eq, if_neg (show ¬(n + 3 = 0) by omega),
    if_neg (show ¬((9/2:ℝ) ≤ 3) by norm_num)]
  simp

theorem fromLoopIter2 (n : Nat) :
    execFromF realOps (n + 5) ⟨[("i", Data.Float (3/2))], []⟩ "i" (3/2) 3 (3/2)
      [.PrintExpr (.Ident "i")]
      = ([Data.Float (3/2), Data.Float 3], .ok ⟨[("i", Data.Float (9/2))], []⟩) := by
  rw [execFromF_eq, if_neg (show ¬(n + 5 = 0) by omega),
    if_pos (show (3/2:ℝ) ≤ 3 by norm_num),
    show n + 5 - 1 = n + 4 from by omega]
  rw [show n + 4 = n + 1 + 3 from by omega]
  rw [fromLoopBodyRun (3/2) (n + 1)]
  dsimp only
  simp only [clean_scope, updateA, String.reduceEq, if_true, reduceIte]
  rw [show n + 1 + 3 = n + 4 from by omega]
  rw [show (3/2 + 3/2 : ℝ) = 3 by norm_num]
  rw [fromLoopIter3 n]
  simp

theorem fromLoopIter1 (n : Nat) :
    execFromF realOps (n + 6) ⟨[("i", Data.Float 0)], []⟩ "i" 0 3 (3/2)
      [.PrintExpr (.Ident "i")]
      = ([Data.Float 0, Data.Float (3/2), Data.Float 3],
          .ok ⟨[("i", Data.Float (9/2))], []⟩) := by
  rw [execFromF_eq, if_neg (show ¬(n + 6 = 0) by omega),
    if_pos (show (0:ℝ) ≤ 3 by norm_num),
    show n + 6 - 1 = n + 5 from by omega]
  rw [show n + 5 = n + 2 + 3 from by omega]
  rw [fromLoopBodyRun 0 (n + 2)]
  dsimp only
  simp only [clean_scope, updateA, String.reduceEq, if_true, reduceIte]
  rw [show n + 2 + 3 = n + 5 from by omega]
  rw [show ((0:ℝ) + 3/2) = 3/2 by norm_num]
  rw [fromLoopIter2 n]
  simp

theorem fromLoopStmtRun (n : Nat) :
    execStmtF realOps (n + 8) ⟨[], []⟩
      (.FromLoop (.FloatLiteral 0) (.FloatLiteral 3) (.Ident "i") (.FloatLiteral 1.5)
        [.PrintExpr (.Ident "i")])
      = ([Data.Float 0, Data.Float (3/2), Data.Float 3], .ok ([], ⟨[], []⟩)) := by
  rw [execStmtF_eq, if_neg (show ¬(n + 8 = 0) by omega),
    show n + 8 - 1 = n + 7 from by omega]
  dsimp only
  rw [evaluate_exprF_eq, if_neg (show ¬(n + 7 = 0) by omega)]
  dsimp only
  rw [evaluate_exprF_eq, if_neg (show ¬(n + 7 = 0) by omega)]
  dsimp only
  rw [evaluate_exprF_eq, if_neg (show ¬(n + 7 = 0) by omega)]
  dsimp only [insertA]
  rw [show (1.5:ℝ) = 3/2 by norm_num]
  rw [show n + 7 = n + 1 + 6 from by omega]
  rw [fromLoopIter1 (n + 1)]
  dsimp only
  simp [removeA, String.reduceEq]

/-- Looking up a name in a map it was just removed from yields nothing. -/
theorem lookupA_removeA {β : Type} (l : List (String × β)) (k : String) :
    lookupA (removeA l k) k = none := by
  induction l with
  | nil => rfl
  | cons p rest ih =>
    obtain ⟨k0, v0⟩ := p
    by_cases hk : k0 = k
    · simpa [removeA, hk] using ih
    · simp [removeA, hk, lookupA, ih]

/-- C3: counted range loops.  First, whenever a counted range loop statement
executes successfully, the loop-variable binding is absent from the final
variables map (it is removed when the loop ends).  Second, a list-valued
minimum bound is rejected with the from-loop list error before any
iteration.  Third, the loop of the quoted example parses from its token
stream to the expected FromLoop statement.  Fourth, executing that loop
prints 0.0, 1.5, 3.0 in order, terminates for every sufficient fuel, and
leaves both maps (and in particular the loop variable) unbound. -/
theorem C3_from_loop :
    (∀ (α : Type) [inst : LinearOrderedField α] (ops : ScalarOps α) (fuel : Nat)
      (st : EState α) (mn mx stp : Expr α) (name : String) (body : List (Parsed α))
      (out : List (Data α)) (sc : List String) (st2 : EState α),
      execStmtF ops fuel st (.FromLoop mn mx (.Ident name) stp body) = (out, .ok (sc, st2)) →
      lookupA st2.vars name = none) ∧
    (∀ (α : Type) [inst : LinearOrderedField α] (ops : ScalarOps α) (fuel : Nat)
      (st : EState α) (mn mx stp : Expr α) (name : String) (body : List (Parsed α))
      (ds : List (Data α)),
      evaluate_exprF ops st fuel mn = .ok (.List ds) →
      execStmtF ops (fuel + 1) st (.FromLoop mn mx (.Ident name) stp body)
        = ([], .error .fromLoopList)) ∧
    (parse_from_blockF 40
      [Tok.keyword "from", .floatLit (0:ℝ), .keyword "to", .floatLit 3, .keyword "as",
       .ident "i", .keyword "with", .keyword "step", .floatLit 1.5, .newline, .lbrace,
       .newline, .ident "i", .newline, .rbrace] 0
      = .ok (.FromLoop (.FloatLiteral 0) (.FloatLiteral 3) (.Ident "i") (.FloatLiteral 1.5)
          [.PrintExpr (.Ident "i")], 15)) ∧
    (∀ n : Nat,
      execStmtF realOps (n + 8) ⟨[], []⟩
        (.FromLoop (.FloatLiteral 0) (.FloatLiteral 3) (.Ident "i") (.FloatLiteral 1.5)
          [.PrintExpr (.Ident "i")])
        = ([Data.Float 0, Data.Float 1.5, Data.Float 3], .ok ([], ⟨[], []⟩))) := by
  refine ⟨?_, ?_, rfl, ?_⟩
  · intro α inst ops fuel st mn mx stp name body out sc st2 h
    cases fuel with
    | zero => rw [execStmtF_eq] at h; simp at h
    | succ m =>
      rw [execStmtF_eq, if_neg (Nat.succ_ne_zero m)] at h
      dsimp only at h
      simp only [Nat.add_sub_cancel] at h
      cases hmn : evaluate_exprF ops st m mn with
      | error f => rw [hmn] at h; simp at h
      | ok dmn =>
        rw [hmn] at h
        cases dmn with
        | List ds => simp at h
        | Float vmn =>
          cases hmx : evaluate_exprF ops st m mx with
          | error f => rw [hmx] at h; simp at h
          | ok dmx =>
            rw [hmx] at h
            cases dmx with
            | List ds => simp at h
            | Float vmx =>
              cases hstp : evaluate_exprF ops st m stp with
              | error f => rw [hstp] at h; simp at h
              | ok dstp =>
                rw [hstp] at h
                cases dstp with
                | List ds => simp at h
                | Float vstp =>
                  dsimp only at h
                  rcases hloop : execFromF ops m
                      (⟨insertA st.vars name (.Float vmn), st.funcs⟩ : EState α)
                      name vmn vmx vstp body with ⟨out1, r1⟩
                  rw [hloop] at h
                  cases r1 with
                  | error e => simp at h
                  | ok st3 =>
                    simp only [Prod.mk.injEq, Except.ok.injEq] at h
                    obtain ⟨-, -, h2⟩ := h
                    rw [← h2]
                    exact lookupA_removeA st3.vars name
  · intro α inst ops fuel st mn mx stp name body ds hmn
    rw [execStmtF_eq, if_neg (Nat.succ_ne_zero fuel)]
    dsimp only
    simp only [Nat.add_sub_cancel]
    rw [hmn]
  · intro n
    have h := fromLoopStmtRun n
    rw [h]
    norm_num

/-- Witness for C3: the removal clause applied to the concrete loop of the
example, whose execution is computed by the helper run lemma. -/
theorem C3_from_loop_witness :
    lookupA (([] : List (String × Data ℝ))) "i" = none :=
  C3_from_loop.1 ℝ realOps 8 ⟨[], []⟩ (.FloatLiteral 0) (.FloatLiteral 3)
    (.FloatLiteral 1.5) "i" [.PrintExpr (.Ident "i")]
    [Data.Float 0, Data.Float (3/2), Data.Float 3] [] ⟨[], []⟩ (fromLoopStmtRun 0)

/-- Token corresponding to an operator, inverse of tokOp, used to state the
associativity property uniformly over the five operators. -/
def opTok {α : Type} : Operator → Tok α
  | .Plus => .plus
  | .Minus => .minus
  | .Multi => .multi
  | .Div => .div
  | .Pow => .circumflex

/-- C2: precedence and left associativity.  The precedence table places
additive below multiplicative below power; for every operator the chain
x op y op z parses to the left-nested tree ((x op y) op z), including power;
2 + 3 * 4 parses with multiplication binding tighter and evaluates to 14;
and 2 ^ 3 ^ 2 parses as (2 ^ 3) ^ 2 and evaluates to 64, not 512. -/
theorem C2_precedence_left_assoc :
    (get_prec .Plus = 1 ∧ get_prec .Minus = 1 ∧ get_prec .Multi = 2 ∧
      get_prec .Div = 2 ∧ get_prec .Pow = 3) ∧
    (∀ (x y z : ℝ) (op : Operator),
      parse_exprF 20 [Tok.floatLit x, opTok op, .floatLit y, opTok op, .floatLit z] 0 1 false
        = .ok (.Expr (.Expr (.FloatLiteral x) op (.FloatLiteral y)) op (.FloatLiteral z), 5)) ∧
    (parse_exprF 20 [Tok.floatLit (2:ℝ), .plus, .floatLit 3, .multi, .floatLit 4] 0 1 false
      = .ok (.Expr (.FloatLiteral 2) .Plus (.Expr (.FloatLiteral 3) .Multi (.FloatLiteral 4)), 5) ∧
     evaluate_exprF realOps ⟨[], []⟩ 10
        (.Expr (.FloatLiteral 2) .Plus (.Expr (.FloatLiteral 3) .Multi (.FloatLiteral 4)))
        = .ok (.Float 14)) ∧
    (parse_exprF 20 [Tok.floatLit (2:ℝ), .circumflex, .floatLit 3, .circumflex, .floatLit 2] 0 1 false
      = .ok (.Expr (.Expr (.FloatLiteral 2) .Pow (.FloatLiteral 3)) .Pow (.FloatLiteral 2), 5) ∧
     evaluate_exprF realOps ⟨[], []⟩ 10
        (.Expr (.Expr (.FloatLiteral 2) .Pow (.FloatLiteral 3)) .Pow (.FloatLiteral 2))
        = .ok (.Float 64) ∧
     evaluate_exprF realOps ⟨[], []⟩ 10
        (.Expr (.Expr (.FloatLiteral 2) .Pow (.FloatLiteral 3)) .Pow (.FloatLiteral 2))
        ≠ .ok (.Float 512)) := by
  have h14 : evaluate_exprF realOps ⟨[], []⟩ 10
      (.Expr (.FloatLiteral 2) .Plus (.Expr (.FloatLiteral 3) .Multi (.FloatLiteral 4)))
      = .ok (.Float (2 + 3 * 4)) := by
    norm_num [evaluate_exprF_eq, bindE, apply_op, scalarOp]
  have h64 : evaluate_exprF realOps ⟨[], []⟩ 10
      (.Expr (.Expr (.FloatLiteral 2) .Pow (.FloatLiteral 3)) .Pow (.FloatLiteral 2))
      = .ok (.Float (((2:ℝ) ^ (3:ℝ)) ^ (2:ℝ))) := by
    norm_num [evaluate_exprF_eq, bindE, apply_op, scalarOp, realOps]
  have hv : (((2:ℝ) ^ (3:ℝ)) ^ (2:ℝ)) = 64 := by norm_num
  refine ⟨⟨rfl, rfl, rfl, rfl, rfl⟩, ?_, ⟨rfl, ?_⟩, rfl, ?_, ?_⟩
  · intro x y z op
    cases op <;> rfl
  · rw [h14]; norm_num
  · rw [h64, hv]
  · rw [h64, hv]
    intro hcontra
    injection hcontra with hcontra
    injection hcontra with hcontra
    norm_num at hcontra

/-- Witness for C2: the uniform left-associativity clause instantiated at the
power operator with the literals 5, 7 and 9. -/
theorem C2_precedence_left_assoc_witness :
    parse_exprF 20 [Tok.floatLit (5:ℝ), .circumflex, .floatLit 7, .circumflex, .floatLit 9] 0 1 false
      = .ok (.Expr (.Expr (.FloatLiteral 5) .Pow (.FloatLiteral 7)) .Pow (.FloatLiteral 9), 5) :=
  C2_precedence_left_assoc.2.1 5 7 9 .Pow

/-- C4 (amended): a variable declaration fails with the redeclaration error
exactly when the name is one of the reserved constants PI, TAU, GLR or is
currently bound as a variable; a function declaration fails with the
redeclaration error exactly when the name is one of the built-ins sin, cos,
tan or is currently bound as a function.  A name bound only as the other
kind is not rejected. -/
theorem C4_redeclaration_checks :
    (∀ (α : Type) [inst : LinearOrderedField α] (ops : ScalarOps α) (fuel : Nat)
      (st : EState α) (name : String) (init : Expr α),
      (execStmtF ops (fuel + 1) st (.Declaration name init)
          = ([], .error (.redeclVar name)) ↔
        (name = "PI" ∨ name = "TAU" ∨ name = "GLR" ∨
          (lookupA st.vars name).isSome = true))) ∧
    (∀ (α : Type) [inst : LinearOrderedField α] (ops : ScalarOps α) (fuel : Nat)
      (st : EState α) (name : String) (ps : List String) (b : Expr α),
      (execStmtF ops (fuel + 1) st (.FunctionDecleration name ps b)
          = ([], .error (.redeclFn name)) ↔
        (name = "sin" ∨ name = "cos" ∨ name = "tan" ∨
          (lookupA st.funcs name).isSome = true))) := by
  constructor
  · intro α inst ops fuel st name init
    rw [execStmtF_eq, if_neg (Nat.succ_ne_zero fuel)]
    dsimp only
    simp only [Nat.add_sub_cancel]
    constructor
    · intro h
      cases hg : get_variable ops st name with
      | some d =>
        revert hg
        unfold get_variable
        by_cases h1 : name = "PI"
        · simp [h1]
        · by_cases h2 : name = "TAU"
          · simp [h2]
          · by_cases h3 : name = "GLR"
            · simp [h3]
            · simp only [h1, h2, h3, if_false]
              intro hl
              simp [h1, h2, h3, hl]
      | none =>
        rw [hg] at h
        cases he : evaluate_exprF ops st fuel init with
        | error f => rw [he] at h; simp at h
        | ok d => rw [he] at h; simp at h
    · intro h
      have hg : ∃ d, get_variable ops st name = some d := by
        unfold get_variable
        rcases h with h1 | h2 | h3 | h4
        · simp [h1]
        · by_cases h1 : name = "PI" <;> simp [h1, h2]
        · by_cases h1 : name = "PI" <;> by_cases h2 : name = "TAU" <;> simp [h1, h2, h3]
        · by_cases h1 : name = "PI"
          · simp [h1]
          · by_cases h2 : name = "TAU"
            · simp [h2]
            · by_cases h3 : name = "GLR"
              · simp [h3]
              · simp only [h1, h2, h3, if_false]
                exact Option.isSome_iff_exists.mp h4
      obtain ⟨d, hd⟩ := hg
      rw [hd]
  · intro α inst ops fuel st name ps b
    rw [execStmtF_eq, if_neg (Nat.succ_ne_zero fuel)]
    dsimp only
    unfold function_exits
    by_cases h1 : name = "sin" ∨ name = "cos" ∨ name = "tan"
    · rcases h1 with h | h | h <;> simp [h]
    · push_neg at h1
      obtain ⟨hs, hc, ht⟩ := h1
      cases hl : (lookupA st.funcs name).isSome with
      | true => simp [hs, hc, ht, hl]
      | false => simp [hs, hc, ht, hl]

/-- Witness for C4: declaring the reserved constant PI as a variable is
rejected as a redeclaration. -/
theorem C4_redeclaration_checks_witness :
    execStmtF realOps (5 + 1) (⟨[], []⟩ : EState ℝ) (.Declaration "PI" (.FloatLiteral 1))
      = ([], .error (.redeclVar "PI")) :=
  (C4_redeclaration_checks.1 ℝ realOps 5 ⟨[], []⟩ "PI" (.FloatLiteral 1)).mpr (Or.inl rfl)

/-- Counterexample for C4 as stated: with the name f already bound as a user
function, a variable declaration of f is not rejected; the two-statement
program runs to completion and binds f in both maps at once. -/
theorem C4_redeclaration_checks_counterexample :
    execute_blockF realOps 10 (⟨[], []⟩ : EState ℝ)
      [.FunctionDecleration "f" ["x"] (.Ident "x"), .Declaration "f" (.FloatLiteral 1)]
      = ([], .ok (["f", "f"],
          ⟨[("f", Data.Float 1)], [("f", (["x"], Expr.Ident "x"))]⟩)) := rfl

/-- C10: the built-in trigonometric calls only reject argument counts
greater than one; a zero-argument call is not an InvalidArguments error but
an out-of-bounds index panic; and a one-argument call evaluates the argument
and maps the function over it, so evaluation is safe exactly when at least
one argument is supplied. -/
theorem C10_trig_zero_args_panic :
    (∀ (α : Type) [inst : LinearOrderedField α] (ops : ScalarOps α) (st : EState α)
      (fuel : Nat),
      evaluate_exprF ops st (fuel + 1) (.FunctionCall "sin" []) = .error .panic ∧
      evaluate_exprF ops st (fuel + 1) (.FunctionCall "cos" []) = .error .panic ∧
      evaluate_exprF ops st (fuel + 1) (.FunctionCall "tan" []) = .error .panic) ∧
    (∀ (α : Type) [inst : LinearOrderedField α] (ops : ScalarOps α) (st : EState α)
      (fuel : Nat) (args : List (Expr α)), args.length > 1 →
      evaluate_exprF ops st (fuel + 1) (.FunctionCall "sin" args)
          = .error (.err (.InvalidArguments "sin")) ∧
      evaluate_exprF ops st (fuel + 1) (.FunctionCall "cos" args)
          = .error (.err (.InvalidArguments "cos")) ∧
      evaluate_exprF ops st (fuel + 1) (.FunctionCall "tan" args)
          = .error (.err (.InvalidArguments "tan"))) ∧
    (∀ (α : Type) [inst : LinearOrderedField α] (ops : ScalarOps α) (st : EState α)
      (fuel : Nat) (a : Expr α),
      evaluate_exprF ops st (fuel + 1) (.FunctionCall "sin" [a])
          = bindE (evaluate_exprF ops st fuel a)
              (fun v => .ok (apply_func (fun x => .Float (ops.sinf x)) v)) ∧
      evaluate_exprF ops st (fuel + 1) (.FunctionCall "cos" [a])
          = bindE (evaluate_exprF ops st fuel a)
              (fun v => .ok (apply_func (fun x => .Float (ops.cosf x)) v)) ∧
      evaluate_exprF ops st (fuel + 1) (.FunctionCall "tan" [a])
          = bindE (evaluate_exprF ops st fuel a)
              (fun v => .ok (apply_func (fun x => .Float (ops.tanf x)) v))) := by
  refine ⟨?_, ?_, ?_⟩
  · intro α inst ops st fuel
    refine ⟨?_, ?_, ?_⟩ <;>
      (rw [evaluate_exprF_eq, if_neg (Nat.succ_ne_zero fuel)]; simp [String.reduceEq])
  · intro α inst ops st fuel args h
    refine ⟨?_, ?_, ?_⟩ <;>
      (rw [evaluate_exprF_eq, if_neg (Nat.succ_ne_zero fuel)]; simp [String.reduceEq, h])
  · intro α inst ops st fuel a
    refine ⟨?_, ?_, ?_⟩ <;>
      (rw [evaluate_exprF_eq, if_neg (Nat.succ_ne_zero fuel)]; simp [String.reduceEq])

/-- Witness for C10: a two-argument sine call over the reals is rejected
with the InvalidArguments error. -/
theorem C10_trig_zero_args_panic_witness :
    evaluate_exprF realOps (⟨[], []⟩ : EState ℝ) (3 + 1)
      (.FunctionCall "sin" [.FloatLiteral 1, .FloatLiteral 2])
      = .error (.err (.InvalidArguments "sin")) :=
  (C10_trig_zero_args_panic.2.1 ℝ realOps ⟨[], []⟩ 3
    [.FloatLiteral 1, .FloatLiteral 2] (by decide)).1

/-- C8: divergence of the top-level parser on a comment.  For every fuel and
accumulator, the top-level statement loop returns fuel exhaustion on a token
stream beginning with a comment token: the comment arm only consumes tokens
while the current token is a newline, so it never consumes the comment and
never advances.  By contrast, the block-level comment arm skips to the next
newline and terminates normally. -/
theorem C8_top_level_comment_diverges :
    (∀ (fuel : Nat) (acc : List (Parsed ℝ)),
      parseTopF fuel [Tok.comment, Tok.ident "hi"] 0 acc = .error .fuelOut) ∧
    (parse_blockF 20 [Tok.lbrace, Tok.comment, Tok.ident (α := ℝ) "x", Tok.newline,
        Tok.rbrace] 0 = .ok ([], 5)) := by
  constructor
  · intro fuel acc
    induction fuel generalizing acc with
    | zero => rfl
    | succ n ih =>
      cases n with
      | zero => rfl
      | succ m =>
        have hstep : parseTopF (m + 1 + 1) [Tok.comment, Tok.ident "hi"] 0 acc
            = parseTopF (m + 1) [Tok.comment, Tok.ident "hi"] 0 acc := rfl
        rw [hstep]
        exact ih acc
  · rfl

/-- C9 (amended): top level and block bodies do not share one statement
dispatcher, and blocks accept strictly fewer statement forms.  The forms
both contexts accept are handed to the same sub-parsers and parse
identically, shown here for three: an identifier followed by an equals sign
parses to the same declaration, a float literal to the same
print-expression, and a from loop to the same FromLoop statement in both
contexts.  But inside a block a for keyword is rejected with the
UnexpectedKeyword error (while at top level it parses a list-iteration
loop), a left brace or left bracket inside a block reaches the todo panic
of parse_block rather than a nested block or destructuring, and a comment,
which inside a block skips to the next newline, makes the top-level parser
diverge for every fuel. -/
theorem C9_block_statement_dispatch :
    (parseTopF 30 [Tok.ident "x", Tok.equals, Tok.floatLit (2:ℝ)] 0 []
        = .ok [.Declaration "x" (.FloatLiteral 2)]
      ∧ parse_blockF 30 [Tok.lbrace, Tok.newline, Tok.ident "x", Tok.equals,
          Tok.floatLit (2:ℝ), Tok.newline, Tok.rbrace] 0
        = .ok ([.Declaration "x" (.FloatLiteral 2)], 7)) ∧
    (parseTopF 30 [Tok.floatLit (2:ℝ)] 0 [] = .ok [.PrintExpr (.FloatLiteral 2)]
      ∧ parse_blockF 30 [Tok.lbrace, Tok.newline, Tok.floatLit (2:ℝ), Tok.newline,
          Tok.rbrace] 0
        = .ok ([.PrintExpr (.FloatLiteral 2)], 5)) ∧
    (parseTopF 40 [Tok.keyword "from", Tok.floatLit (0:ℝ), Tok.keyword "to",
        Tok.floatLit 1, Tok.keyword "as", Tok.ident "i", Tok.newline, Tok.lbrace,
        Tok.newline, Tok.rbrace] 0 []
        = .ok [.FromLoop (.FloatLiteral 0) (.FloatLiteral 1) (.Ident "i")
            (.FloatLiteral 1) []]
      ∧ parse_blockF 40 [Tok.lbrace, Tok.newline, Tok.keyword "from",
          Tok.floatLit (0:ℝ), Tok.keyword "to", Tok.floatLit 1, Tok.keyword "as",
          Tok.ident "i", Tok.newline, Tok.lbrace, Tok.newline, Tok.rbrace,
          Tok.newline, Tok.rbrace] 0
        = .ok ([.FromLoop (.FloatLiteral 0) (.FloatLiteral 1) (.Ident "i")
            (.FloatLiteral 1) []], 14)) ∧
    (parseTopF 40 [Tok.keyword "for", Tok.ident "i", Tok.keyword "in", Tok.lbracket,
        Tok.floatLit (1:ℝ), Tok.rbracket, Tok.lbrace, Tok.newline, Tok.rbrace] 0 []
      = .ok [.ForLoop (.Ident "i") (.List [.FloatLiteral 1]) []]) ∧
    (∀ fuel : Nat, parseBlockLoopF (fuel + 1) ([Tok.keyword "for", Tok.ident "i"] : List (Tok ℝ)) 0 []
      = .error (.perr (.UnexpectedKeyword "for"))) ∧
    (∀ fuel : Nat, parseBlockLoopF (fuel + 1) ([Tok.lbrace] : List (Tok ℝ)) 0 []
      = .error .fatal) ∧
    (∀ fuel : Nat, parseBlockLoopF (fuel + 1) ([Tok.lbracket] : List (Tok ℝ)) 0 []
      = .error .fatal) ∧
    (∀ (fuel : Nat) (acc : List (Parsed ℝ)),
      parseTopF fuel [Tok.comment] 0 acc = .error .fuelOut) ∧
    (parse_blockF 20 [Tok.lbrace, Tok.comment, Tok.floatLit (1:ℝ), Tok.newline,
        Tok.rbrace] 0 = .ok ([], 5)) := by
  refine ⟨⟨rfl, rfl⟩, ⟨rfl, rfl⟩, ⟨rfl, rfl⟩, rfl, fun fuel => rfl, fun fuel => rfl,
    fun fuel => rfl, ?_, rfl⟩
  intro fuel acc
  induction fuel generalizing acc with
  | zero => rfl
  | succ n ih =>
    cases n with
    | zero => rfl
    | succ m =>
      have hstep : parseTopF (m + 1 + 1) [Tok.comment] 0 acc
          = parseTopF (m + 1) [Tok.comment] 0 acc := rfl
      rw [hstep]
      exact ih acc

/-- Counterexample for C9: inside a block, a for keyword does not start a
list-iteration loop; parse_block rejects it with the UnexpectedKeyword
error. -/
theorem C9_block_statement_dispatch_counterexample :
    parse_blockF 10 ([Tok.lbrace, Tok.keyword "for", Tok.ident "i"] : List (Tok ℝ)) 0
      = .error (.perr (.UnexpectedKeyword "for")) := rfl

/-! Substitution specification (claim C1).  The following definitions are
modelled on the spec's words, not on the source: substExpr structurally
copies an expression replacing every occurrence of a parameter name by the
matching call-site argument expression.  They are compared with the
transformation transformF that the source actually performs. -/

mutual
/-- Spec-modelled substitution: structurally copy the expression, replacing
every identifier that is a parameter by the matching argument expression and
leaving everything else unchanged. -/
def substExpr {α : Type} (ps : List String) (args : List (Expr α)) : Expr α → Expr α
  | .Ident name =>
    match findParamArg ps args name with
    | some v => v
    | none => .Ident name
  | .FunctionCall name as2 => .FunctionCall name (substExprList ps args as2)
  | .Expr l op r => .Expr (substExpr ps args l) op (substExpr ps args r)
  | .List es => .List (substExprList ps args es)
  | .FloatLiteral v => .FloatLiteral v
  | .NegFloatLiteral v => .NegFloatLiteral v

/-- List part of substExpr. -/
def substExprList {α : Type} (ps : List String) (args : List (Expr α)) :
    List (Expr α) → List (Expr α)
  | [] => []
  | e :: es => substExpr ps args e :: substExprList ps args es
end

mutual
/-- No function call occurs anywhere in the expression. -/
def callFree {α : Type} : Expr α → Bool
  | .Ident _ => true
  | .FunctionCall _ _ => false
  | .Expr l _ r => callFree l && callFree r
  | .List es => callFreeList es
  | .FloatLiteral _ => true
  | .NegFloatLiteral _ => true

/-- List part of callFree. -/
def callFreeList {α : Type} : List (Expr α) → Bool
  | [] => true
  | e :: es => callFree e && callFreeList es
end

mutual
/-- Every identifier of the expression is a parameter matched with an
argument by the zip of transform_fn_expr. -/
def identsBound {α : Type} (ps : List String) (args : List (Expr α)) : Expr α → Bool
  | .Ident name => (findParamArg ps args name).isSome
  | .FunctionCall _ as2 => identsBoundList ps args as2
  | .Expr l _ r => identsBound ps args l && identsBound ps args r
  | .List es => identsBoundList ps args es
  | .FloatLiteral _ => true
  | .NegFloatLiteral _ => true

/-- List part of identsBound. -/
def identsBoundList {α : Type} (ps : List String) (args : List (Expr α)) :
    List (Expr α) → Bool
  | [] => true
  | e :: es => identsBound ps args e && identsBoundList ps args es
end

mutual
/-- Node count of an expression, the fuel needed to transform it. -/
def sizeE {α : Type} : Expr α → Nat
  | .Ident _ => 1
  | .FunctionCall _ as2 => 1 + sizeEList as2
  | .Expr l _ r => 1 + sizeE l + sizeE r
  | .List es => 1 + sizeEList es
  | .FloatLiteral _ => 1
  | .NegFloatLiteral _ => 1

/-- List part of sizeE, padded so that the empty list still needs one unit
of fuel. -/
def sizeEList {α : Type} : List (Expr α) → Nat
  | [] => 1
  | e :: es => 1 + sizeE e + sizeEList es
end

/-- Sanity check: substitution replaces the parameter by the argument. -/
theorem substExpr_example :
    substExpr ["x"] [Expr.Ident (α := ℝ) "y"] (.Expr (.Ident "x") .Plus (.Ident "x"))
      = .Expr (.Ident "y") .Plus (.Ident "y") := rfl

mutual
/-- On a call-free body all of whose identifiers are parameters, the source's
transformation transform_fn_expr computes exactly the spec's substitution,
given fuel at least the body's size. -/
theorem transformF_subst {α : Type} [inst : LinearOrderedField α] (ops : ScalarOps α)
    (st : EState α) (ps : List String) (args : List (Expr α)) :
    ∀ (e : Expr α) (fuel : Nat), callFree e = true → identsBound ps args e = true →
      sizeE e ≤ fuel → transformF ops st fuel ps args e = .ok (substExpr ps args e)
  | .Ident name, fuel => by
    intro _ hib hsz
    simp only [sizeE] at hsz
    obtain ⟨n, rfl⟩ : ∃ n, fuel = n + 1 := ⟨fuel - 1, by omega⟩
    simp only [identsBound] at hib
    obtain ⟨v, hv⟩ := Option.isSome_iff_exists.mp hib
    simp only [transformF, substExpr, hv]
  | .FunctionCall name as2, fuel => by
    intro hcf _ _
    simp only [callFree] at hcf
    exact absurd hcf (by simp)
  | .Expr l op r, fuel => by
    intro hcf hib hsz
    simp only [sizeE] at hsz
    obtain ⟨n, rfl⟩ : ∃ n, fuel = n + 1 := ⟨fuel - 1, by omega⟩
    simp only [callFree, Bool.and_eq_true] at hcf
    simp only [identsBound, Bool.and_eq_true] at hib
    have hl := transformF_subst ops st ps args l n hcf.1 hib.1 (by omega)
    have hr := transformF_subst ops st ps args r n hcf.2 hib.2 (by omega)
    simp only [transformF, substExpr, hl, hr, bindE]
  | .List es, fuel => by
    intro hcf hib hsz
    simp only [sizeE] at hsz
    obtain ⟨n, rfl⟩ : ∃ n, fuel = n + 1 := ⟨fuel - 1, by omega⟩
    simp only [callFree] at hcf
    simp only [identsBound] at hib
    have h := transformListF_subst ops st ps args es n hcf hib (by omega)
    simp only [transformF, substExpr, h, bindE]
  | .FloatLiteral v, fuel => by
    intro _ _ hsz
    simp only [sizeE] at hsz
    obtain ⟨n, rfl⟩ : ∃ n, fuel = n + 1 := ⟨fuel - 1, by omega⟩
    simp only [transformF, substExpr]
  | .NegFloatLiteral v, fuel => by
    intro _ _ hsz
    simp only [sizeE] at hsz
    obtain ⟨n, rfl⟩ : ∃ n, fuel = n + 1 := ⟨fuel - 1, by omega⟩
    simp only [transformF, substExpr]
termination_by e _ => sizeOf e
decreasing_by all_goals (try simp; try omega)

/-- List part of transformF_subst. -/
theorem transformListF_subst {α : Type} [inst : LinearOrderedField α] (ops : ScalarOps α)
    (st : EState α) (ps : List String) (args : List (Expr α)) :
    ∀ (es : List (Expr α)) (fuel : Nat), callFreeList es = true →
      identsBoundList ps args es = true → sizeEList es ≤ fuel →
      transformListF ops st fuel ps args es = .ok (substExprList ps args es)
  | [], fuel => by
    intro _ _ hsz
    simp only [sizeEList] at hsz
    obtain ⟨n, rfl⟩ : ∃ n, fuel = n + 1 := ⟨fuel - 1, by omega⟩
    simp only [transformListF, substExprList]
  | e :: es, fuel => by
    intro hcf hib hsz
    simp only [sizeEList] at hsz
    obtain ⟨n, rfl⟩ : ∃ n, fuel = n + 1 := ⟨fuel - 1, by omega⟩
    simp only [callFreeList, Bool.and_eq_true] at hcf
    simp only [identsBoundList, Bool.and_eq_true] at hib
    have h1 := transformF_subst ops st ps args e n hcf.1 hib.1 (by omega)
    have h2 := transformListF_subst ops st ps args es n hcf.2 hib.2 (by omega)
    simp only [transformListF, substExprList, h1, h2, bindE]
termination_by es _ => sizeOf es
decreasing_by all_goals (try simp; try omega)
end

/-- C1 (amended): substitution semantics holds for bodies that contain no
function call and whose identifiers are all parameters: for such a body,
calling the function with matching arity continues as the evaluation of the
spec's substitution of the arguments into the body.  The two examples of the
claim hold: with y = 3.0 declared, f(x) = x + x makes f(y) evaluate to 6.0,
and area(r) = PI * r ^ 2 makes area(2.0) evaluate to 4 * pi (the PI in the
body is replaced by its value during the transformation, which coincides
with evaluating it later).  For bodies containing function calls the claim
fails: see the counterexample. -/
theorem C1_function_substitution :
    (∀ (α : Type) [inst : LinearOrderedField α] (ops : ScalarOps α) (st : EState α)
      (name : String) (ps : List String) (body : Expr α) (args : List (Expr α)) (fuel : Nat),
      name ≠ "sin" → name ≠ "cos" → name ≠ "tan" →
      lookupA st.funcs name = some (ps, body) → args.length = ps.length →
      callFree body = true → identsBound ps args body = true → sizeE body ≤ fuel →
      evaluate_exprF ops st (fuel + 1) (.FunctionCall name args)
        = evaluate_exprF ops st fuel (substExpr ps args body)) ∧
    (evaluate_exprF realOps
        (⟨[("y", .Float 3)], [("f", (["x"], .Expr (.Ident "x") .Plus (.Ident "x")))]⟩ : EState ℝ) 10
        (.FunctionCall "f" [.Ident "y"]) = .ok (.Float 6)) ∧
    (evaluate_exprF realOps
        (⟨[], [("area", (["r"],
            .Expr (.Ident "PI") .Multi (.Expr (.Ident "r") .Pow (.FloatLiteral 2))))]⟩ : EState ℝ) 10
        (.FunctionCall "area" [.FloatLiteral 2]) = .ok (.Float (4 * Real.pi))) := by
  have hgen : ∀ (α : Type) [inst : LinearOrderedField α] (ops : ScalarOps α) (st : EState α)
      (name : String) (ps : List String) (body : Expr α) (args : List (Expr α)) (fuel : Nat),
      name ≠ "sin" → name ≠ "cos" → name ≠ "tan" →
      lookupA st.funcs name = some (ps, body) → args.length = ps.length →
      callFree body = true → identsBound ps args body = true → sizeE body ≤ fuel →
      evaluate_exprF ops st (fuel + 1) (.FunctionCall name args)
        = evaluate_exprF ops st fuel (substExpr ps args body) := by
    intro α inst ops st name ps body args fuel h1 h2 h3 hlook hlen hcf hib hsz
    rw [evaluate_exprF_eq, if_neg (Nat.succ_ne_zero fuel)]
    dsimp only
    rw [if_neg h1, if_neg h2, if_neg h3, hlook]
    dsimp only
    rw [if_neg (not_not_intro hlen)]
    simp only [Nat.add_sub_cancel]
    rw [transformF_subst ops st ps args body fuel hcf hib hsz]
    simp only [bindE]
  refine ⟨hgen, ?_, ?_⟩
  · have h6a := hgen ℝ realOps
      (⟨[("y", .Float 3)], [("f", (["x"], .Expr (.Ident "x") .Plus (.Ident "x")))]⟩ : EState ℝ)
      "f" ["x"] (.Expr (.Ident "x") .Plus (.Ident "x")) [.Ident "y"] 9
      (by decide) (by decide) (by decide) rfl rfl rfl rfl (by decide)
    rw [show (10:Nat) = 9 + 1 from rfl, h6a]
    simp [evaluate_exprF_eq, substExpr, findParamArg, bindE, get_variable, lookupA,
      apply_op, scalarOp, String.reduceEq]
    norm_num
  · have htr : transformF realOps
        (⟨[], [("area", (["r"],
            .Expr (.Ident "PI") .Multi (.Expr (.Ident "r") .Pow (.FloatLiteral 2))))]⟩ : EState ℝ)
        9 ["r"] [.FloatLiteral 2]
        (.Expr (.Ident "PI") .Multi (.Expr (.Ident "r") .Pow (.FloatLiteral 2)))
        = .ok (.Expr (.FloatLiteral Real.pi) .Multi
            (.Expr (.FloatLiteral 2) .Pow (.FloatLiteral 2))) := by
      simp [transformF_eq, bindE, findParamArg, get_variable, dataToExpr, realOps,
        String.reduceEq]
    have h7 : evaluate_exprF realOps
        (⟨[], [("area", (["r"],
            .Expr (.Ident "PI") .Multi (.Expr (.Ident "r") .Pow (.FloatLiteral 2))))]⟩ : EState ℝ)
        10 (.FunctionCall "area" [.FloatLiteral (2:ℝ)])
        = bindE (transformF realOps
            (⟨[], [("area", (["r"],
                .Expr (.Ident "PI") .Multi (.Expr (.Ident "r") .Pow (.FloatLiteral 2))))]⟩ : EState ℝ)
            9 ["r"] [.FloatLiteral 2]
            (.Expr (.Ident "PI") .Multi (.Expr (.Ident "r") .Pow (.FloatLiteral 2))))
            fun t => evaluate_exprF realOps
              (⟨[], [("area", (["r"],
                  .Expr (.Ident "PI") .Multi (.Expr (.Ident "r") .Pow (.FloatLiteral 2))))]⟩ : EState ℝ)
              9 t := by
      rw [evaluate_exprF_eq]
      simp only [String.reduceEq, lookupA, if_neg, if_false]
      norm_num [lookupA]
    rw [h7, htr]
    simp only [bindE]
    have hev : evaluate_exprF realOps
        (⟨[], [("area", (["r"],
            .Expr (.Ident "PI") .Multi (.Expr (.Ident "r") .Pow (.FloatLiteral 2))))]⟩ : EState ℝ)
        9 (.Expr (.FloatLiteral Real.pi) .Multi
            (.Expr (.FloatLiteral 2) .Pow (.FloatLiteral 2)))
        = .ok (.Float (Real.pi * (2:ℝ) ^ (2:ℝ))) := by
      norm_num [evaluate_exprF_eq, bindE, apply_op, scalarOp, realOps]
    rw [hev, show Real.pi * (2:ℝ) ^ (2:ℝ) = 4 * Real.pi from by
      rw [show ((2:ℝ) ^ (2:ℝ)) = 4 from by norm_num]; ring]

/-- Counterexample for C1: substitution as specified would make
f(x) = g(x), g(t) = t + t, f(1.0) evaluate to 2.0, but the source inlines
the nested call g(x) against the untransformed argument list of the inner
call site, so the parameter x is never replaced and evaluation fails with
UndefinedVariable("x"). -/
theorem C1_function_substitution_counterexample :
    evaluate_exprF realOps
      (⟨[], [("f", (["x"], .FunctionCall "g" [.Ident "x"])),
             ("g", (["t"], .Expr (.Ident "t") .Plus (.Ident "t")))]⟩ : EState ℝ) 10
      (.FunctionCall "f" [.FloatLiteral 1])
      = .error (.err (.UndefinedVariable "x")) := rfl

/-- Witness for C1: the general substitution clause instantiated at
f(x) = x + x called on the argument y. -/
theorem C1_function_substitution_witness :
    evaluate_exprF realOps
      (⟨[("y", .Float 3)], [("f", (["x"], .Expr (.Ident "x") .Plus (.Ident "x")))]⟩ : EState ℝ)
      (3 + 1) (.FunctionCall "f" [.Ident "y"])
      = evaluate_exprF realOps
        (⟨[("y", .Float 3)], [("f", (["x"], .Expr (.Ident "x") .Plus (.Ident "x")))]⟩ : EState ℝ)
        3 (substExpr ["x"] [.Ident "y"] (.Expr (.Ident "x") .Plus (.Ident "x"))) :=
  C1_function_substitution.1 ℝ realOps
    (⟨[("y", .Float 3)], [("f", (["x"], .Expr (.Ident "x") .Plus (.Ident "x")))]⟩ : EState ℝ)
    "f" ["x"] (.Expr (.Ident "x") .Plus (.Ident "x")) [.Ident "y"] 3
    (by decide) (by decide) (by decide) rfl rfl rfl rfl (by decide)
